import Mathlib

/-!
# edge-rpc: the pending-request registry of `edge-rpc/rpc.c`

A shallow embedding of the JSON-RPC correlation engine of mbed-edge
(`src/edge-rpc/rpc.c`).

* The static list `messages` and everything the module does to the outside world
  (callbacks, `json_decref`, `free`, trace lines) are carried in `rpc_state`: the list in
  insertion order, and a log of the external calls in the order they are made.
* A pointer that the source tests against `NULL`, or that a library call may return as
  `NULL`, is an `Option`.  Dereferencing `NULL`, a failed `assert` and a `NULL` argument to
  `strlen`/`strncmp` have no result: the function returns `none`.
* Callbacks are opaque function pointers (numbers), taken to be callable; calling one is
  logged.  The embedding follows one call of the module at a time and does not follow a
  callback that calls back into the module.
* jansson (`json_object_get`, `json_string_value`, `json_string`, `json_object_set_new`)
  and libc (`strlen`, `strncmp`) are modelled by their documented behaviour;
  `json_dumps`, `calloc`, the identifier generator and the clock are inputs.
-/

namespace Rpc

/-! ## Library: strings -/

/-- The characters of a C string: what the buffer holds before the first NUL. -/
def cstr (s : List Char) : List Char :=
  s.takeWhile (fun c => c.toNat ≠ 0)

/-- libc `strlen`: the number of characters before the first NUL. -/
def strlen (s : List Char) : Nat :=
  (cstr s).length

/-- libc `strncmp(s1, s2, n)`: compares at most `n` characters and stops at a NUL; the end of
the list is the terminator.  The result is the difference of the first differing pair; the
module only tests it against 0. -/
def strncmp : List Char → List Char → Nat → Int
  | _, _, 0 => 0
  | [], [], _ + 1 => 0
  | [], b :: _, _ + 1 => 0 - (b.toNat : Int)
  | a :: _, [], _ + 1 => (a.toNat : Int)
  | a :: as, b :: bs, n + 1 =>
    if a = b then
      if a.toNat = 0 then 0 else strncmp as bs n
    else (a.toNat : Int) - (b.toNat : Int)

/-! ## Library: jansson values -/

/-- A jansson value (`json_t`).  Object members are kept in a list, one per key. -/
inductive json_t where
  | null
  | boolean (b : Bool)
  | integer (n : Int)
  | string (s : String)
  | array (items : List json_t)
  | object (members : List (String × json_t))

/-- jansson `json_object_get(json, key)`: the member stored under `key`, `NULL` when `json`
is `NULL`, is not an object, or has no such member. -/
def json_object_get : Option json_t → String → Option json_t
  | some (json_t.object members), key => members.lookup key
  | _, _ => none

/-- jansson `json_string_value(json)`: the text of a string value, `NULL` otherwise. -/
def json_string_value : Option json_t → Option String
  | some (json_t.string s) => some s
  | _ => none

/-- jansson `json_string(value)`: a new string value, `NULL` when `value` is `NULL`. -/
def json_string : Option String → Option json_t
  | some s => some (json_t.string s)
  | none => none

/-- Replace the value stored under `key`, or add the member at the end. -/
def set_member (key : String) (value : json_t) :
    List (String × json_t) → List (String × json_t)
  | [] => [(key, value)]
  | (k, v) :: rest =>
    if k = key then (key, value) :: rest else (k, v) :: set_member key value rest

/-- jansson `json_object_set_new(json, key, value)`: stores `value` under `key` in the
object `json`, replacing any value already there.  It fails, leaving `json` as it was, when
`value` is `NULL` or `json` is not an object.  The source ignores the return code, so only
the object after the call is modelled. -/
def json_object_set_new (json : json_t) (key : String) (value : Option json_t) : json_t :=
  match json, value with
  | json_t.object members, some v => json_t.object (set_member key v members)
  | j, _ => j

/-! ## Data model -/

/-- The constant `WARN_CALLBACK_RUNTIME`: warning threshold of the callback processing time,
in milliseconds. -/
def WARN_CALLBACK_RUNTIME : Nat := 500

/-- The struct `message_t`.  `addr` is the address of the struct, the identity of the
entry; the intrusive `link` is the position in `rpc_state.messages`.  The field `id` is never
written by the module: the identifier of an entry is the `"id"` member of `json_message`. -/
structure message_t where
  addr : Nat
  json_message : Option json_t
  id : Option String := none
  request_context : Nat
  success_handler : Nat
  failure_handler : Nat
  free_func : Option Nat

/-- The lines the module writes with `tr_err`, `tr_error`, `tr_warn` and `tr_debug`. -/
inductive log_t where
  /-- tr_err: "Error could not allocate message struct." -/
  | alloc_failed
  /-- tr_warn: "NOTE! No free_func was given to deallocate the request_context parameter." -/
  | no_free_func_given
  /-- tr_warn: "NOTE! 'free_func' was NULL therefore deallocation for request_context is
  impossible." -/
  | free_func_was_null
  /-- tr_warn: "A null message pointer was passed to rpc_construct_message." -/
  | null_message
  /-- tr_warn: "A null data or message id output param was passed to rpc_construct_message." -/
  | null_output
  /-- tr_err: "Error in adding the request to request list." -/
  | serialize_failed
  /-- tr_error: "Can't find id in response" -/
  | no_id_in_response
  /-- tr_debug: "Callback time %f ms."; `ms` is the `uint64_t` difference that the source
  prints after its conversion to `double`. -/
  | callback_time (ms : Nat)
  /-- tr_warn: "Callback processing took more than %d milliseconds to run, actual call took %f
  ms."; `ms` is the `uint64_t` difference that the source prints after its conversion to
  `double`. -/
  | callback_slow (threshold ms : Nat)
  /-- tr_warn: "Did not find any matching request for the response with id: %s." -/
  | no_match (response_id : Option String)
  /-- tr_warn: "Destroyed %d (unhandled) messages." -/
  | destroyed (count : Int)

/-- One external call made by the module.  `entry` is the address of the entry on whose
behalf the call is made. -/
inductive event where
  /-- call of `found->success_handler(response, found->request_context)` -/
  | success_handler (entry handler : Nat) (response : Option json_t) (ctx : Nat)
  /-- call of `found->failure_handler(response, found->request_context)` -/
  | failure_handler (entry handler : Nat) (response : Option json_t) (ctx : Nat)
  /-- call of `json_decref(message->json_message)` -/
  | json_decref (entry : Nat) (json : Option json_t)
  /-- call of `message->free_func(message->request_context)` -/
  | free_func (entry f ctx : Nat)
  /-- call of `free(message)` -/
  | free (entry : Nat)
  /-- a trace line -/
  | log (line : log_t)

/-- The module state: the static list `messages` in insertion order, and the external calls
made so far, oldest first. -/
structure rpc_state where
  messages : List message_t
  trace : List event

/-- Append one external call to the log. -/
def emit (st : rpc_state) (e : event) : rpc_state :=
  { st with trace := st.trace ++ [e] }

/-- The function `rpc_message_list_size`: `ns_list_count(&messages)`, the number of entries
in the list (`ns_list.h` is not among the sources; the count is taken as it is). -/
def rpc_message_list_size (st : rpc_state) : Int :=
  (st.messages.length : Int)

/-- The function `rpc_message_list_is_empty`: `ns_list_is_empty(&messages)`. -/
def rpc_message_list_is_empty (st : rpc_state) : Bool :=
  st.messages.isEmpty

/-! ## Construction and destruction of entries -/

/-- The function `alloc_message`.  `calloc` is what `calloc(1, sizeof(message_t))` returns.
On `NULL` the source logs an error and then writes through the null pointer: no result. -/
def alloc_message (calloc : Option Nat) (json_message : Option json_t)
    (success_handler failure_handler : Nat) (free_func : Option Nat) (request_context : Nat)
    (st : rpc_state) : Option (message_t × rpc_state) :=
  match calloc with
  | none => none
  | some entry =>
    let st1 := if free_func.isNone then emit st (event.log log_t.no_free_func_given) else st
    some ({ addr := entry, json_message := json_message, id := none,
            request_context := request_context, success_handler := success_handler,
            failure_handler := failure_handler, free_func := free_func }, st1)

/-- The function `rpc_dealloc_message_entry`: releases the payload, calls the release function on the
request context when there is one (a warning otherwise), and frees the entry.  Nothing
happens on `NULL`. -/
def rpc_dealloc_message_entry (message_entry : Option message_t) (st : rpc_state) :
    rpc_state :=
  match message_entry with
  | none => st
  | some message =>
    let st1 := emit st (event.json_decref message.addr message.json_message)
    let st2 :=
      match message.free_func with
      | some f => emit st1 (event.free_func message.addr f message.request_context)
      | none => emit st1 (event.log log_t.free_func_was_null)
    emit st2 (event.free message.addr)

/-- What one call of `rpc_construct_message` gets from its collaborators: the identifier the
registered generator `g_generate_msg_id` returns, jansson's `json_dumps` under
`JSON_COMPACT | JSON_SORT_KEYS`, and the result of `calloc`. -/
structure rpc_env where
  generate_msg_id : Option String
  json_dumps : json_t → Option String
  calloc : Option Nat

/-- What `rpc_construct_message` hands back: the return code, `*returned_msg_entry`, `*data`
and `*message_id` (`none` when not written), and the payload object after the call (it is
changed in place). -/
structure construct_out where
  rc : Int
  returned_msg_entry : Option message_t
  data : Option String
  message_id : Option String
  message : Option json_t

/-- The function `rpc_construct_message`.  `message` is the payload (`none` for `NULL`);
`data` and `message_id` tell whether the two output locations are non-null.  The location
`returned_msg_entry` is written before any test and is taken to be valid. -/
def rpc_construct_message (env : rpc_env) (message : Option json_t)
    (success_handler failure_handler : Nat) (free_func : Option Nat) (request_context : Nat)
    (data message_id : Bool) (st : rpc_state) : Option (construct_out × rpc_state) :=
  match message with
  | none =>
    some ({ rc := 1, returned_msg_entry := none, data := none, message_id := none,
            message := none }, emit st (event.log log_t.null_message))
  | some msg =>
    if data = false ∨ message_id = false then
      some ({ rc := 1, returned_msg_entry := none, data := none, message_id := none,
              message := some msg }, emit st (event.log log_t.null_output))
    else
      let id := env.generate_msg_id
      let msg1 := json_object_set_new msg "id" (json_string id)
      match env.json_dumps msg1 with
      | some bytes =>
        match alloc_message env.calloc (some msg1) success_handler failure_handler free_func
            request_context st with
        | none => none
        | some (msg_entry, st1) =>
          some ({ rc := 0, returned_msg_entry := some msg_entry, data := some bytes,
                  message_id := id, message := some msg1 }, st1)
      | none =>
        some ({ rc := 1, returned_msg_entry := none, data := none, message_id := id,
                message := some msg1 }, emit st (event.log log_t.serialize_failed))

/-- The function `rpc_add_message_entry_to_list`: `ns_list_add_to_end`, nothing on `NULL`. -/
def rpc_add_message_entry_to_list (message_entry : Option message_t) (st : rpc_state) :
    rpc_state :=
  match message_entry with
  | some entry => { st with messages := st.messages ++ [entry] }
  | none => st

/-! ## Lookup and removal -/

/-- The scan of `_remove_message_for_id` over the list: the first entry for which
`strncmp(json_string_value(id_obj), message_id, strlen(message_id)) == 0` is unlinked and
returned with the remaining list.  No result when an entry has no `"id"` member (the
`assert`) or when `strncmp`/`strlen` would get `NULL`. -/
def remove_scan (message_id : Option String) :
    List message_t → Option (Option message_t × List message_t)
  | [] => some (none, [])
  | cur :: rest =>
    match json_object_get cur.json_message "id" with
    | none => none
    | some id_obj =>
      match json_string_value (some id_obj), message_id with
      | some s, some k =>
        if strncmp s.data k.data (strlen k.data) = 0 then some (some cur, rest)
        else
          match remove_scan message_id rest with
          | none => none
          | some (found, rest1) => some (found, cur :: rest1)
      | _, _ => none

/-- The function `_remove_message_for_id`: the entry found (or `NULL`) and the state with it unlinked. -/
def _remove_message_for_id (message_id : Option String) (st : rpc_state) :
    Option (Option message_t × rpc_state) :=
  match remove_scan message_id st.messages with
  | none => none
  | some (found, rest) => some (found, { st with messages := rest })

/-- The function `remove_message_for_response`: the entry found, `*response_id` (left `NULL` when the
response has no `"id"`), and the state. -/
def remove_message_for_response (response : Option json_t) (st : rpc_state) :
    Option (Option message_t × Option String × rpc_state) :=
  match json_object_get response "id" with
  | none => some (none, none, emit st (event.log log_t.no_id_in_response))
  | some response_id_obj =>
    let response_id := json_string_value (some response_id_obj)
    match _remove_message_for_id response_id st with
    | none => none
    | some (found, st1) => some (found, response_id, st1)

/-- The function `remove_message_for_id`: the entry found is unlinked and the pointer is dropped. -/
def remove_message_for_id (message_id : Option String) (st : rpc_state) : Option rpc_state :=
  match _remove_message_for_id message_id st with
  | none => none
  | some (_, st1) => some st1

/-! ## The response correlator -/

/-- The difference `end_time - begin_time` on `uint64_t`. -/
def elapsed_u64 (begin_time end_time : Nat) : Nat :=
  (end_time % 2 ^ 64 + 2 ^ 64 - begin_time % 2 ^ 64) % 2 ^ 64

/-- The function `handle_response`.  `begin_time` and `end_time` are the two readings of
`get_posix_clock_time()` around the callback.  `callback_time` is the `uint64_t` difference
converted to `double`; the conversion is monotone and exact at 500, so the comparison with
`WARN_CALLBACK_RUNTIME` is the comparison of the integers. -/
def handle_response (response : Option json_t) (begin_time end_time : Nat) (st : rpc_state) :
    Option (Int × rpc_state) :=
  match remove_message_for_response response st with
  | none => none
  | some (none, response_id, st1) =>
    some (0, emit st1 (event.log (log_t.no_match response_id)))
  | some (some found, _, st1) =>
    let result_obj := json_object_get response "result"
    let rc : Int := if result_obj.isSome then 0 else 1
    let st2 :=
      if result_obj.isSome then
        emit st1 (event.success_handler found.addr found.success_handler response
          found.request_context)
      else
        emit st1 (event.failure_handler found.addr found.failure_handler response
          found.request_context)
    let callback_time := elapsed_u64 begin_time end_time
    let st3 := emit st2 (event.log (log_t.callback_time callback_time))
    let st4 :=
      if WARN_CALLBACK_RUNTIME ≤ callback_time then
        emit st3 (event.log (log_t.callback_slow WARN_CALLBACK_RUNTIME callback_time))
      else st3
    some (rc, rpc_dealloc_message_entry (some found) st4)

/-! ## Drain -/

/-- The increment `count ++` on `int32_t`, two's complement. -/
def int32_succ (count : Int) : Int :=
  (count + 1 + 2 ^ 31) % 2 ^ 32 - 2 ^ 31

/-- The loop of `rpc_destroy_messages` over the entries still to visit: unlink `cur`,
destroy it, count it. -/
def rpc_destroy_messages_loop : List message_t → Int → rpc_state → Int × rpc_state
  | [], count, st => (count, st)
  | cur :: rest, count, st =>
    rpc_destroy_messages_loop rest (int32_succ count)
      (rpc_dealloc_message_entry (some cur) { st with messages := rest })

/-- The function `rpc_destroy_messages`. -/
def rpc_destroy_messages (st : rpc_state) : rpc_state :=
  match rpc_destroy_messages_loop st.messages 0 st with
  | (count, st1) => emit st1 (event.log (log_t.destroyed count))

/-! ## Reading the log -/

/-- Is the event a call of a success or failure handler? -/
def is_handler_call : event → Bool
  | event.success_handler _ _ _ _ => true
  | event.failure_handler _ _ _ _ => true
  | _ => false

/-- Is the event a call of a release function (`free_func`)? -/
def is_release_call : event → Bool
  | event.free_func _ _ _ => true
  | _ => false

/-- Is the event a call of the release function of the entry at address `a`? -/
def releases (a : Nat) : event → Bool
  | event.free_func entry _ _ => entry == a
  | _ => false

/-- Is the event the `free` of the entry at address `a`? -/
def frees (a : Nat) : event → Bool
  | event.free entry => entry == a
  | _ => false

/-- The handler calls of a log, in order. -/
def handler_calls (tr : List event) : List event :=
  tr.filter is_handler_call

/-- The release-function calls of a log, in order. -/
def release_calls (tr : List event) : List event :=
  tr.filter is_release_call

/-- How often the release function of the entry at `a` was called. -/
def release_count (a : Nat) (tr : List event) : Nat :=
  tr.countP (releases a)

/-- How often the entry at `a` was freed. -/
def free_count (a : Nat) (tr : List event) : Nat :=
  tr.countP (frees a)

/-- Is the event the warning about a slow callback? -/
def is_slow_warning : event → Bool
  | event.log (log_t.callback_slow _ _) => true
  | _ => false

/-- The slow-callback warnings of a log, in order. -/
def slow_warnings (tr : List event) : List event :=
  tr.filter is_slow_warning

/-- The external calls `rpc_dealloc_message_entry` makes for one entry. -/
def dealloc_events (e : message_t) : List event :=
  (rpc_dealloc_message_entry (some e) { messages := [], trace := [] }).trace

/-- The release-function call made for an entry when it is destroyed, if it has a release
function. -/
def release_event (e : message_t) : Option event :=
  e.free_func.map (fun f => event.free_func e.addr f e.request_context)

/-- The identifier of a pending entry: the text of the `"id"` member of its payload. -/
def entry_id (e : message_t) : Option String :=
  json_string_value (json_object_get e.json_message "id")

/-! ## Sequences of calls -/

/-- One call into the module: `rpc_add_message_entry_to_list` on an entry,
`handle_response` on a response (with the two clock readings), `remove_message_for_id` on a
key, or `rpc_destroy_messages`. -/
inductive rpc_op where
  | add (message_entry : message_t)
  | response (response : Option json_t) (begin_time end_time : Nat)
  | remove (message_id : Option String)
  | destroy

/-- The state after one call; `none` when the call has no result. -/
def rpc_step (op : rpc_op) (st : rpc_state) : Option rpc_state :=
  match op with
  | rpc_op.add message_entry => some (rpc_add_message_entry_to_list (some message_entry) st)
  | rpc_op.response response begin_time end_time =>
    (handle_response response begin_time end_time st).map Prod.snd
  | rpc_op.remove message_id => remove_message_for_id message_id st
  | rpc_op.destroy => some (rpc_destroy_messages st)

/-- The state after a sequence of calls. -/
def rpc_run : List rpc_op → rpc_state → Option rpc_state
  | [], st => some st
  | op :: ops, st =>
    match rpc_step op st with
    | none => none
    | some st1 => rpc_run ops st1

/-- The entries a sequence of calls inserts, in order. -/
def added_entries : List rpc_op → List message_t
  | [] => []
  | rpc_op.add message_entry :: ops => message_entry :: added_entries ops
  | _ :: ops => added_entries ops

/-- The address of the entry a call unlinks through `remove_message_for_id`, if any. -/
def cancelled_by (op : rpc_op) (st : rpc_state) : List Nat :=
  match op with
  | rpc_op.remove message_id =>
    match _remove_message_for_id message_id st with
    | some (some found, _) => [found.addr]
    | _ => []
  | _ => []

/-- The addresses of the entries unlinked through `remove_message_for_id` along a sequence
of calls. -/
def rpc_cancelled : List rpc_op → rpc_state → List Nat
  | [], _ => []
  | op :: ops, st =>
    cancelled_by op st ++
      (match rpc_step op st with
        | none => []
        | some st1 => rpc_cancelled ops st1)

/-- Bookkeeping of the entries inserted so far (`added`), of those unlinked through
`remove_message_for_id` (`cancelled`) and of the log: pending entries and cancelled entries
have not been released or freed, every other inserted entry has been freed once and its
release function, if any, called once. -/
structure lifecycle_inv (added : List message_t) (cancelled : List Nat) (st : rpc_state) :
    Prop where
  added_nodup : (added.map message_t.addr).Nodup
  pending_nodup : (st.messages.map message_t.addr).Nodup
  pending_added : ∀ e ∈ st.messages, e ∈ added
  pending_fresh : ∀ e ∈ st.messages,
    release_count e.addr st.trace = 0 ∧ free_count e.addr st.trace = 0
  cancelled_fresh : ∀ a ∈ cancelled,
    a ∈ added.map message_t.addr ∧ a ∉ st.messages.map message_t.addr ∧
      release_count a st.trace = 0 ∧ free_count a st.trace = 0
  destroyed_once : ∀ e ∈ added, e.addr ∉ st.messages.map message_t.addr → e.addr ∉ cancelled →
    free_count e.addr st.trace = 1 ∧
      release_count e.addr st.trace = (if e.free_func.isSome then 1 else 0)
  unknown_fresh : ∀ a, a ∉ added.map message_t.addr →
    release_count a st.trace = 0 ∧ free_count a st.trace = 0

/-- The effect of a call other than an insertion: a block `mid` of entries leaves the list;
either it is dropped without any release or free (`dropped` lists its addresses), or every
entry of it is destroyed. -/
def unlink_effect (st st1 : rpc_state) (dropped : List Nat) : Prop :=
  ∃ pre mid post, st.messages = pre ++ mid ++ post ∧ st1.messages = pre ++ post ∧
    ((dropped = mid.map message_t.addr ∧
        ∀ a, release_count a st1.trace = release_count a st.trace ∧
          free_count a st1.trace = free_count a st.trace) ∨
     (dropped = [] ∧
        ∀ a, release_count a st1.trace = release_count a st.trace +
            mid.countP (fun m => m.addr == a && m.free_func.isSome) ∧
          free_count a st1.trace = free_count a st.trace +
            mid.countP (fun m => m.addr == a)))

/-! ## Identifiers and keys -/

/-- The entry has a text identifier of which the key `k` is a prefix, both taken as C strings
(up to their terminator). -/
def id_starts_with (k : String) (m : message_t) : Prop :=
  ∃ sid, entry_id m = some sid ∧ cstr k.data <+: cstr sid.data

/-- The entry has a text identifier of which the key `k` is not a prefix. -/
def id_without_prefix (k : String) (m : message_t) : Prop :=
  ∃ sid, entry_id m = some sid ∧ ¬ cstr k.data <+: cstr sid.data

/-- The entry has a text identifier: its payload has an `"id"` member that is a string. -/
def has_text_id (m : message_t) : Prop :=
  ∃ sid, entry_id m = some sid

/-- Full-value matching, written from the words of the specification and not from the
source: the first entry in insertion order whose identifier is equal to the key (same length,
same characters, as C strings) is removed and returned; nothing is removed when no identifier
equals the key. -/
def spec_remove_first_equal (k : String) : List message_t → Option message_t × List message_t
  | [] => (none, [])
  | cur :: rest =>
    if (entry_id cur).map (fun sid => cstr sid.data) = some (cstr k.data) then (some cur, rest)
    else ((spec_remove_first_equal k rest).1, cur :: (spec_remove_first_equal k rest).2)

/-! ## Sample data -/

/-- A request object as `allocate_base_request("test")` builds it. -/
def sample_request : json_t :=
  json_t.object [("jsonrpc", json_t.string "2.0"), ("method", json_t.string "test"),
    ("params", json_t.object [])]

/-- A request object carrying the identifier `id`. -/
def request_with_id (id : String) : json_t :=
  json_object_set_new sample_request "id" (json_string (some id))

/-- A pending entry at address `addr` with identifier `id`, handlers 100 and 200, release
function 300 and request context `ctx`. -/
def sample_entry (addr : Nat) (id : String) (ctx : Nat) : message_t :=
  { addr := addr, json_message := some (request_with_id id), request_context := ctx,
    success_handler := 100, failure_handler := 200, free_func := some 300 }

/-- A success response `\x7b"jsonrpc":"2.0","id":id,"result":\x7b\x7d\x7d`. -/
def success_response (id : String) : json_t :=
  json_t.object [("jsonrpc", json_t.string "2.0"), ("id", json_t.string id),
    ("result", json_t.object [])]

/-- A failure response `\x7b"jsonrpc":"2.0","id":id,"error":\x7b\x7d\x7d`. -/
def error_response (id : String) : json_t :=
  json_t.object [("jsonrpc", json_t.string "2.0"), ("id", json_t.string id),
    ("error", json_t.object [])]

/-- A success response whose "id" is the number 1, which JSON-RPC 2.0 allows:
`\x7b"jsonrpc":"2.0","id":1,"result":\x7b\x7d\x7d`. -/
def numeric_id_response : json_t :=
  json_t.object [("jsonrpc", json_t.string "2.0"), ("id", json_t.integer 1),
    ("result", json_t.object [])]

/-- The state with no pending entry and an empty log. -/
def empty_state : rpc_state :=
  { messages := [], trace := [] }

/-- The state with the single pending entry `sample_entry 1 "12" 7`. -/
def state_with_12 : rpc_state :=
  { messages := [sample_entry 1 "12" 7], trace := [] }

/-- The compact, key-sorted text of `request_with_id id`. -/
def sample_bytes (id : String) : String :=
  "\x7b\"id\":\"" ++ id ++ "\",\"jsonrpc\":\"2.0\",\"method\":\"test\",\"params\":\x7b\x7d\x7d"

/-- A text the sample serialiser writes as it is: it has neither a quote (34) nor a backslash
(92). -/
def is_plain (s : String) : Bool :=
  s.data.all (fun c => c.toNat != 34 && c.toNat != 92)

/-- The compact text of one member other than "id": a text value or an empty object; no text
for other values. -/
def sample_member : String × json_t → Option (List Char)
  | (k, json_t.string v) =>
    if is_plain k && is_plain v then
      some (",\"".data ++ k.data ++ "\":\"".data ++ v.data ++ "\"".data)
    else none
  | (k, json_t.object []) =>
    if is_plain k then some (",\"".data ++ k.data ++ "\":\x7b\x7d".data) else none
  | _ => none

/-- The compact text of a list of members other than "id". -/
def sample_members : List (String × json_t) → Option (List Char)
  | [] => some []
  | m :: rest =>
    match sample_member m, sample_members rest with
    | some a, some b => some (a ++ b)
    | _, _ => none

/-- A serialiser for the request objects of the samples: the compact text of an object with
a plain text "id", written first, followed by the other members in their order; it fails on
any other document. -/
def sample_dumps (doc : json_t) : Option String :=
  match doc with
  | json_t.object members =>
    match members.lookup "id" with
    | some (json_t.string s) =>
      if is_plain s then
        match sample_members (members.filter (fun m => m.1 != "id")) with
        | some others =>
          some (String.mk ("\x7b\"id\":\"".data ++ s.data ++ "\"".data ++ others ++ "\x7d".data))
        | none => none
      else none
    | _ => none
  | _ => none

/-- A parser for the texts of `sample_dumps` that reads the "id" member back: after the
opening `"id":"` it takes the characters up to the next quote. -/
def sample_loads (bytes : String) : Option json_t :=
  if "\x7b\"id\":\"".data.isPrefixOf bytes.data then
    some (json_t.object [("id",
      json_t.string (String.mk ((bytes.data.drop 7).takeWhile (fun c => c.toNat != 34))))])
  else none

/-- Collaborators for one construction with the sample serialiser: the generator returns
`id` and `calloc` returns the address `addr`. -/
def sample_env_dumps (id : String) (addr : Nat) : rpc_env :=
  { generate_msg_id := some id, json_dumps := sample_dumps, calloc := some addr }

/-- Collaborators for one construction: the generator returns `id`, serialisation gives
the text `bytes`, and `calloc` returns the address `addr`. -/
def sample_env (id : String) (bytes : String) (addr : Nat) : rpc_env :=
  { generate_msg_id := some id, json_dumps := fun _ => some bytes, calloc := some addr }

/-- Collaborators for a construction during which memory runs out: the generator returns
`id`, serialisation gives the text `bytes`, and `calloc` returns `NULL`. -/
def sample_env_no_memory (id : String) (bytes : String) : rpc_env :=
  { generate_msg_id := some id, json_dumps := fun _ => some bytes, calloc := none }

/-- What `rpc_construct_message` returns for the sample request when the generator gives
"1" and `calloc` gives address 1. -/
def sample_out : construct_out :=
  { rc := 0, returned_msg_entry := some (sample_entry 1 "1" 7),
    data := some (sample_bytes "1"), message_id := some "1",
    message := some (request_with_id "1") }

/-- A sequence with every kind of call: three insertions, a success response for "1", the
cancellation of "2", and a drain. -/
def sample_ops : List rpc_op :=
  [rpc_op.add (sample_entry 1 "1" 7), rpc_op.add (sample_entry 2 "2" 8),
   rpc_op.add (sample_entry 3 "3" 9),
   rpc_op.response (some (success_response "1")) 0 10,
   rpc_op.remove (some "2"), rpc_op.destroy]

/-- A pending entry at address `addr` with identifier `id` and no release function. -/
def sample_entry_no_free (addr : Nat) (id : String) (ctx : Nat) : message_t :=
  { addr := addr, json_message := some (request_with_id id), request_context := ctx,
    success_handler := 100, failure_handler := 200, free_func := none }

/-! ## Lemmas: the log and the destruction of an entry -/

theorem emit_trace (st : rpc_state) (e : event) : (emit st e).trace = st.trace ++ [e] := rfl

theorem emit_messages (st : rpc_state) (e : event) : (emit st e).messages = st.messages := rfl

theorem dealloc_trace (e : message_t) (st : rpc_state) :
    (rpc_dealloc_message_entry (some e) st).trace = st.trace ++ dealloc_events e := by
  unfold dealloc_events rpc_dealloc_message_entry
  cases h : e.free_func <;> simp [emit, h]

theorem dealloc_messages (e : Option message_t) (st : rpc_state) :
    (rpc_dealloc_message_entry e st).messages = st.messages := by
  unfold rpc_dealloc_message_entry
  cases e with
  | none => rfl
  | some m => cases h : m.free_func <;> simp [emit, h]

theorem dealloc_eq (e : message_t) (st : rpc_state) :
    rpc_dealloc_message_entry (some e) st =
      { messages := st.messages, trace := st.trace ++ dealloc_events e } := by
  unfold dealloc_events rpc_dealloc_message_entry
  cases h : e.free_func <;> simp [emit, h]

theorem dealloc_events_eq (e : message_t) :
    dealloc_events e =
      event.json_decref e.addr e.json_message ::
        (match e.free_func with
          | some f => event.free_func e.addr f e.request_context
          | none => event.log log_t.free_func_was_null) ::
        [event.free e.addr] := by
  unfold dealloc_events rpc_dealloc_message_entry
  cases h : e.free_func <;> simp [emit, h]

theorem handler_calls_dealloc_events (ms : List message_t) :
    handler_calls (ms.flatMap dealloc_events) = [] := by
  induction ms with
  | nil => rfl
  | cons e rest ih =>
    simp only [handler_calls] at ih
    cases hf : e.free_func <;>
      simp [handler_calls, dealloc_events_eq, hf, is_handler_call, ih]

theorem release_calls_dealloc_events (ms : List message_t) :
    release_calls (ms.flatMap dealloc_events) = ms.filterMap release_event := by
  induction ms with
  | nil => rfl
  | cons e rest ih =>
    simp only [release_calls] at ih
    cases hf : e.free_func <;>
      simp [release_calls, dealloc_events_eq, hf, is_release_call, ih, release_event,
        List.filterMap_cons]

theorem release_count_dealloc_events (a : Nat) (e : message_t) :
    release_count a (dealloc_events e) =
      if (e.addr == a && e.free_func.isSome) = true then 1 else 0 := by
  cases hf : e.free_func <;> by_cases ha : e.addr = a <;>
    simp [release_count, dealloc_events_eq, hf, ha, releases, List.countP_cons]

theorem free_count_dealloc_events (a : Nat) (e : message_t) :
    free_count a (dealloc_events e) = if (e.addr == a) = true then 1 else 0 := by
  cases hf : e.free_func <;> by_cases ha : e.addr = a <;>
    simp [free_count, dealloc_events_eq, hf, ha, frees, List.countP_cons]

theorem release_count_flatMap (a : Nat) (ms : List message_t) :
    release_count a (ms.flatMap dealloc_events) =
      ms.countP (fun m => m.addr == a && m.free_func.isSome) := by
  induction ms with
  | nil => rfl
  | cons e rest ih =>
    have h := release_count_dealloc_events a e
    simp only [release_count] at ih h ⊢
    rw [List.flatMap_cons, List.countP_append, ih, h, List.countP_cons]
    omega

theorem free_count_flatMap (a : Nat) (ms : List message_t) :
    free_count a (ms.flatMap dealloc_events) = ms.countP (fun m => m.addr == a) := by
  induction ms with
  | nil => rfl
  | cons e rest ih =>
    have h := free_count_dealloc_events a e
    simp only [free_count] at ih h ⊢
    rw [List.flatMap_cons, List.countP_append, ih, h, List.countP_cons]
    omega

theorem release_count_append (a : Nat) (t1 t2 : List event) :
    release_count a (t1 ++ t2) = release_count a t1 + release_count a t2 := by
  simp [release_count]

theorem free_count_append (a : Nat) (t1 t2 : List event) :
    free_count a (t1 ++ t2) = free_count a t1 + free_count a t2 := by
  simp [free_count]

/-! ## Lemmas: strings and object members -/

theorem char_toNat_sub_ne_zero (a b : Char) (h : a ≠ b) :
    (a.toNat : Int) - (b.toNat : Int) ≠ 0 := by
  intro h0
  apply h
  have h1 : a.toNat = b.toNat := by omega
  have h2 : a.val = b.val := UInt32.ext (by simpa [Char.toNat, UInt32.toNat] using h1)
  exact Char.ext h2

/-- The comparison made by the lookup succeeds exactly when the key is a prefix of the stored
identifier (both taken up to their terminator). -/
theorem strncmp_strlen_eq_zero_iff (a b : List Char) :
    strncmp a b (strlen b) = 0 ↔ cstr b <+: cstr a := by
  induction b generalizing a with
  | nil => simp [strlen, cstr, strncmp]
  | cons c bs ih =>
    by_cases hc : c.toNat = 0
    · simp [strlen, cstr, hc, strncmp, List.takeWhile_cons]
    · have hlen : strlen (c :: bs) = strlen bs + 1 := by
        simp [strlen, cstr, hc, List.takeWhile_cons]
      have hcs : cstr (c :: bs) = c :: cstr bs := by
        simp [cstr, hc, List.takeWhile_cons]
      rw [hlen, hcs]
      cases a with
      | nil =>
        simp only [strncmp, cstr, List.takeWhile_nil]
        constructor
        · intro h; omega
        · intro h; simp at h
      | cons x as =>
        by_cases hx : x = c
        · subst hx
          have hxs : cstr (x :: as) = x :: cstr as := by
            simp [cstr, hc, List.takeWhile_cons]
          rw [hxs]
          simp only [strncmp, if_true, hc, if_false]
          rw [ih as]
          constructor
          · rintro ⟨t, ht⟩
            exact ⟨t, by simp [← ht]⟩
          · rintro ⟨t, ht⟩
            simp only [List.cons_append, List.cons.injEq, true_and] at ht
            exact ⟨t, ht⟩
        · simp only [strncmp, hx, if_false]
          constructor
          · intro h
            exact absurd h (char_toNat_sub_ne_zero x c hx)
          · rintro ⟨t, ht⟩
            exfalso
            by_cases hx0 : x.toNat = 0
            · simp [cstr, hx0, List.takeWhile_cons] at ht
            · simp only [cstr, List.takeWhile_cons, hx0, ne_eq, not_false_eq_true,
                decide_True, if_true, List.cons_append, List.cons.injEq] at ht
              exact hx ht.1.symm

theorem lookup_set_member (key : String) (v : json_t) (ms : List (String × json_t)) :
    (set_member key v ms).lookup key = some v := by
  induction ms with
  | nil => simp [set_member, List.lookup]
  | cons kv rest ih =>
    obtain ⟨k, w⟩ := kv
    by_cases hk : k = key
    · simp [set_member, hk, List.lookup]
    · have hne : (key == k) = false := by
        simp only [beq_eq_false_iff_ne, ne_eq]
        exact fun h => hk h.symm
      simp [set_member, hk, List.lookup, hne, ih]

/-- After `json_object_set_new` on an object, the member is the value just stored, whatever
was stored under the key before. -/
theorem json_object_get_set_new (ms : List (String × json_t)) (key : String) (v : json_t) :
    json_object_get (some (json_object_set_new (json_t.object ms) key (some v))) key =
      some v := by
  simp [json_object_set_new, json_object_get, lookup_set_member]

/-! ## Lemmas: lookup and response handling -/

/-- The scan unlinks the entry it returns and nothing else. -/
theorem remove_scan_found (k : Option String) (ms rest : List message_t) (e : message_t)
    (h : remove_scan k ms = some (some e, rest)) :
    ∃ pre post, ms = pre ++ e :: post ∧ rest = pre ++ post := by
  induction ms generalizing rest with
  | nil => simp [remove_scan] at h
  | cons cur tl ih =>
    unfold remove_scan at h
    split at h
    · simp at h
    · split at h
      · split at h
        · simp only [Option.some.injEq, Prod.mk.injEq] at h
          obtain ⟨h1, h2⟩ := h
          subst h1; subst h2
          exact ⟨[], tl, rfl, rfl⟩
        · split at h
          · simp at h
          · rename_i found rest1 hrec
            simp only [Option.some.injEq, Prod.mk.injEq] at h
            obtain ⟨h1, h2⟩ := h
            subst h1; subst h2
            obtain ⟨pre, post, hp, hr⟩ := ih rest1 hrec
            exact ⟨cur :: pre, post, by simp [hp], by simp [hr]⟩
      · simp at h

/-- A scan that finds nothing leaves the list as it was. -/
theorem remove_scan_not_found (k : Option String) (ms rest : List message_t)
    (h : remove_scan k ms = some (none, rest)) : rest = ms := by
  induction ms generalizing rest with
  | nil => simp [remove_scan] at h; exact h
  | cons cur tl ih =>
    unfold remove_scan at h
    split at h
    · simp at h
    · split at h
      · split at h
        · simp at h
        · split at h
          · simp at h
          · rename_i found rest1 hrec
            simp only [Option.some.injEq, Prod.mk.injEq] at h
            obtain ⟨h1, h2⟩ := h
            subst h1; subst h2
            rw [ih rest1 hrec]
      · simp at h

/-- The scan passes over entries whose identifier does not start with the key and stops at
the first entry whose identifier does. -/
theorem remove_scan_append (k : String) (ms : List message_t) (e : message_t) (sid : String)
    (hms : ∀ m ∈ ms, ∃ mid, entry_id m = some mid ∧ ¬ cstr k.data <+: cstr mid.data)
    (he : entry_id e = some sid) (hpre : cstr k.data <+: cstr sid.data) :
    remove_scan (some k) (ms ++ [e]) = some (some e, ms) := by
  have hstep : ∀ (m : message_t) (mid : String), entry_id m = some mid →
      ∃ id_obj, json_object_get m.json_message "id" = some id_obj ∧
        json_string_value (some id_obj) = some mid := by
    intro m mid h
    unfold entry_id at h
    cases hg : json_object_get m.json_message "id" with
    | none => rw [hg] at h; simp [json_string_value] at h
    | some id_obj => rw [hg] at h; exact ⟨id_obj, rfl, h⟩
  induction ms with
  | nil =>
    obtain ⟨id_obj, h1, h2⟩ := hstep e sid he
    have h3 := (strncmp_strlen_eq_zero_iff sid.data k.data).mpr hpre
    simp [remove_scan, h1, h2, h3]
  | cons m rest ih =>
    obtain ⟨mid, hm1, hm2⟩ := hms m (List.mem_cons_self _ _)
    obtain ⟨id_obj, h1, h2⟩ := hstep m mid hm1
    have h3 : strncmp mid.data k.data (strlen k.data) ≠ 0 := fun h =>
      hm2 ((strncmp_strlen_eq_zero_iff mid.data k.data).mp h)
    have ih2 := ih (fun x hx => hms x (List.mem_cons_of_mem _ hx))
    simp [remove_scan, h1, h2, h3, ih2]

/-- What a successful lookup by `remove_message_for_response` means. -/
theorem remove_message_for_response_found (response : Option json_t) (st st1 : rpc_state)
    (e : message_t) (rid : Option String)
    (h : remove_message_for_response response st = some (some e, rid, st1)) :
    ∃ rest, remove_scan rid st.messages = some (some e, rest) ∧
      st1 = { messages := rest, trace := st.trace } ∧
      ∃ v, json_object_get response "id" = some v ∧ rid = json_string_value (some v) := by
  unfold remove_message_for_response at h
  split at h
  · simp at h
  · rename_i v hv
    simp only [_remove_message_for_id] at h
    split at h
    · simp at h
    · rename_i found st2 hrm
      split at hrm
      · simp at hrm
      · rename_i found2 rest hscan
        simp only [Option.some.injEq, Prod.mk.injEq] at hrm h
        obtain ⟨h1, h2, h3⟩ := h
        obtain ⟨h4, h5⟩ := hrm
        subst h1 h2 h3 h4 h5
        exact ⟨rest, hscan, rfl, v, hv, rfl⟩

/-- A lookup by `remove_message_for_response` that finds nothing leaves the list as it was
and writes at most the line about the missing identifier. -/
theorem remove_message_for_response_not_found (response : Option json_t) (st st1 : rpc_state)
    (rid : Option String)
    (h : remove_message_for_response response st = some (none, rid, st1)) :
    st1.messages = st.messages ∧
      (st1.trace = st.trace ∨
        (json_object_get response "id" = none ∧
          st1.trace = st.trace ++ [event.log log_t.no_id_in_response])) := by
  unfold remove_message_for_response at h
  split at h
  · rename_i hid
    simp only [Option.some.injEq, Prod.mk.injEq] at h
    obtain ⟨-, -, h3⟩ := h
    subst h3
    exact ⟨rfl, Or.inr ⟨hid, rfl⟩⟩
  · simp only [_remove_message_for_id] at h
    split at h
    · simp at h
    · rename_i found st2 hrm
      split at hrm
      · simp at hrm
      · rename_i found2 rest hscan
        simp only [Option.some.injEq, Prod.mk.injEq] at hrm h
        obtain ⟨h1, h2, h3⟩ := h
        obtain ⟨h4, h5⟩ := hrm
        subst h1 h2 h3 h4
        rw [← h5]
        have := remove_scan_not_found _ _ _ hscan
        exact ⟨this, Or.inl rfl⟩

/-- The result of `handle_response` when the lookup found the entry `e`: the handler call,
the timing lines, then the destruction of `e`. -/
theorem handle_response_found (response : Option json_t) (begin_time end_time : Nat)
    (st st1 : rpc_state) (e : message_t) (rid : Option String)
    (h : remove_message_for_response response st = some (some e, rid, st1)) :
    handle_response response begin_time end_time st =
      some ((if (json_object_get response "result").isSome then 0 else 1),
        { messages := st1.messages,
          trace := st.trace ++
            ((if (json_object_get response "result").isSome then
                event.success_handler e.addr e.success_handler response e.request_context
              else event.failure_handler e.addr e.failure_handler response e.request_context) ::
              event.log (log_t.callback_time (elapsed_u64 begin_time end_time)) ::
              ((if WARN_CALLBACK_RUNTIME ≤ elapsed_u64 begin_time end_time then
                  [event.log (log_t.callback_slow WARN_CALLBACK_RUNTIME
                    (elapsed_u64 begin_time end_time))]
                else []) ++ dealloc_events e)) }) := by
  obtain ⟨rest, -, hst1, -⟩ := remove_message_for_response_found response st st1 e rid h
  subst hst1
  unfold handle_response
  rw [h]
  simp only
  congr 1
  refine Prod.ext rfl ?_
  cases hres : (json_object_get response "result").isSome <;>
    by_cases hw : WARN_CALLBACK_RUNTIME ≤ elapsed_u64 begin_time end_time <;>
    simp [hw, dealloc_eq, emit]

/-- The result of `handle_response` when the lookup found nothing. -/
theorem handle_response_not_found (response : Option json_t) (begin_time end_time : Nat)
    (st st1 : rpc_state) (rid : Option String)
    (h : remove_message_for_response response st = some (none, rid, st1)) :
    handle_response response begin_time end_time st =
      some (0, emit st1 (event.log (log_t.no_match rid))) := by
  unfold handle_response
  rw [h]

/-- An entry whose address occurs once in the list is not among the others. -/
theorem addr_not_mem_of_nodup (pre post : List message_t) (e : message_t)
    (h : ((pre ++ e :: post).map message_t.addr).Nodup) :
    e.addr ∉ (pre ++ post).map message_t.addr := by
  simp only [List.map_append, List.map_cons] at h ⊢
  rw [List.nodup_append] at h
  obtain ⟨-, hpost, hdisj⟩ := h
  rw [List.nodup_cons] at hpost
  intro hmem
  rw [List.mem_append] at hmem
  rcases hmem with hmem | hmem
  · exact hdisj hmem (List.mem_cons_self _ _)
  · exact hpost.1 hmem

/-! ## Lemmas: drain -/

theorem int32_succ_eq (count : Int) (h0 : 0 ≤ count) (h1 : count + 1 < 2 ^ 31) :
    int32_succ count = count + 1 := by
  unfold int32_succ
  have h2 : (count + 1 + 2 ^ 31) % 2 ^ 32 = count + 1 + 2 ^ 31 := by
    apply Int.emod_eq_of_lt <;> omega
  omega

/-- The drain loop: the counter, the remaining list and the log after visiting `ms`. -/
theorem rpc_destroy_messages_loop_eq (ms : List message_t) (count : Int) (st : rpc_state)
    (h0 : 0 ≤ count) (h1 : count + ms.length < 2 ^ 31) :
    rpc_destroy_messages_loop ms count st =
      (count + ms.length,
        { messages := (if ms.isEmpty then st.messages else []),
          trace := st.trace ++ ms.flatMap dealloc_events }) := by
  induction ms generalizing count st with
  | nil => simp [rpc_destroy_messages_loop]
  | cons cur rest ih =>
    have hlen : ((cur :: rest).length : Int) = (rest.length : Int) + 1 := by simp
    rw [hlen] at h1
    unfold rpc_destroy_messages_loop
    rw [int32_succ_eq count h0 (by omega), dealloc_eq]
    rw [ih (count + 1) _ (by omega) (by omega)]
    refine Prod.ext (by simp; omega) ?_
    cases rest <;> simp

/-- The log of `rpc_destroy_messages`, without the bound on the counter. -/
theorem rpc_destroy_messages_loop_state (ms : List message_t) (count : Int) (st : rpc_state) :
    (rpc_destroy_messages_loop ms count st).2 =
      { messages := (if ms.isEmpty then st.messages else []),
        trace := st.trace ++ ms.flatMap dealloc_events } := by
  induction ms generalizing count st with
  | nil => simp [rpc_destroy_messages_loop]
  | cons cur rest ih =>
    unfold rpc_destroy_messages_loop
    rw [ih, dealloc_eq]
    cases rest <;> simp

/-! ## Lemmas: sequences of calls -/

/-- The effect of `handle_response` on the list and on the release and free counts. -/
theorem handle_response_effect (response : Option json_t) (begin_time end_time : Nat)
    (st st2 : rpc_state) (rc : Int)
    (h : handle_response response begin_time end_time st = some (rc, st2)) :
    unlink_effect st st2 [] := by
  cases hrm : remove_message_for_response response st with
  | none => simp [handle_response, hrm] at h
  | some r =>
    obtain ⟨found, rid, st1⟩ := r
    cases found with
    | none =>
      rw [handle_response_not_found response begin_time end_time st st1 rid hrm] at h
      simp only [Option.some.injEq, Prod.mk.injEq] at h
      obtain ⟨-, h2⟩ := h
      subst h2
      obtain ⟨hm, ht⟩ := remove_message_for_response_not_found response st st1 rid hrm
      refine ⟨st.messages, [], [], by simp, by simp [emit, hm], Or.inr ⟨rfl, ?_⟩⟩
      intro a
      rcases ht with ht | ⟨-, ht⟩ <;>
        simp [emit, ht, release_count, free_count, releases, frees, List.countP_cons]
    | some e =>
      rw [handle_response_found response begin_time end_time st st1 e rid hrm] at h
      simp only [Option.some.injEq, Prod.mk.injEq] at h
      obtain ⟨-, h2⟩ := h
      subst h2
      obtain ⟨rest, hscan, hst1, -⟩ :=
        remove_message_for_response_found response st st1 e rid hrm
      obtain ⟨pre, post, hpre, hrest⟩ := remove_scan_found rid st.messages rest e hscan
      refine ⟨pre, [e], post, by simp [hpre], by simp [hst1, hrest], Or.inr ⟨rfl, ?_⟩⟩
      intro a
      have hr := release_count_dealloc_events a e
      have hf := free_count_dealloc_events a e
      simp only [release_count, free_count] at hr hf ⊢
      constructor
      · cases hres : (json_object_get response "result").isSome <;>
          by_cases hw : WARN_CALLBACK_RUNTIME ≤ elapsed_u64 begin_time end_time <;>
          simp [hw, hr, releases, List.countP_cons]
      · cases hres : (json_object_get response "result").isSome <;>
          by_cases hw : WARN_CALLBACK_RUNTIME ≤ elapsed_u64 begin_time end_time <;>
          simp [hw, hf, frees, List.countP_cons]

/-- The effect of `remove_message_for_id`: at most one entry is dropped, nothing is logged. -/
theorem remove_message_for_id_effect (k : Option String) (st st1 : rpc_state)
    (h : remove_message_for_id k st = some st1) :
    unlink_effect st st1 (cancelled_by (rpc_op.remove k) st) := by
  unfold remove_message_for_id at h
  cases hrm : _remove_message_for_id k st with
  | none => simp [hrm] at h
  | some r =>
    obtain ⟨found, st2⟩ := r
    simp only [hrm, Option.some.injEq] at h
    subst h
    have hrm2 := hrm
    unfold _remove_message_for_id at hrm2
    split at hrm2
    · simp at hrm2
    · rename_i found2 rest hscan
      simp only [Option.some.injEq, Prod.mk.injEq] at hrm2
      obtain ⟨h1, h2⟩ := hrm2
      subst h1 h2
      cases found2 with
      | none =>
        have := remove_scan_not_found _ _ _ hscan
        exact ⟨st.messages, [], [], by simp, by simp [this],
          Or.inl ⟨by simp [cancelled_by, hrm], fun a => ⟨rfl, rfl⟩⟩⟩
      | some e =>
        obtain ⟨pre, post, hpre, hrest⟩ := remove_scan_found _ _ _ _ hscan
        exact ⟨pre, [e], post, by simp [hpre], by simp [hrest],
          Or.inl ⟨by simp [cancelled_by, hrm], fun a => ⟨rfl, rfl⟩⟩⟩

/-- The effect of `rpc_destroy_messages`: every pending entry is destroyed. -/
theorem rpc_destroy_messages_effect (st : rpc_state) :
    unlink_effect st (rpc_destroy_messages st) [] := by
  have hst : rpc_destroy_messages st =
      emit (rpc_destroy_messages_loop st.messages 0 st).2
        (event.log (log_t.destroyed (rpc_destroy_messages_loop st.messages 0 st).1)) := by
    unfold rpc_destroy_messages
    rfl
  rw [rpc_destroy_messages_loop_state] at hst
  refine ⟨[], st.messages, [], by simp, ?_, Or.inr ⟨rfl, ?_⟩⟩
  · rw [hst]
    cases hm : st.messages <;> simp [emit]
  · intro a
    rw [hst]
    have hr := release_count_flatMap a st.messages
    have hf := free_count_flatMap a st.messages
    simp only [release_count, free_count] at hr hf ⊢
    simp [emit, hr, hf, releases, frees, List.countP_cons]

theorem countP_addr_of_not_mem (a : Nat) (ms : List message_t) (p : message_t → Bool)
    (h : a ∉ ms.map message_t.addr) :
    ms.countP (fun m => m.addr == a && p m) = 0 := by
  rw [List.countP_eq_zero]
  intro m hm
  have hne : m.addr ≠ a := fun heq => h (heq ▸ List.mem_map_of_mem message_t.addr hm)
  simp [hne]

theorem countP_addr_of_not_mem' (a : Nat) (ms : List message_t)
    (h : a ∉ ms.map message_t.addr) :
    ms.countP (fun m => m.addr == a) = 0 := by
  rw [List.countP_eq_zero]
  intro m hm
  have hne : m.addr ≠ a := fun heq => h (heq ▸ List.mem_map_of_mem message_t.addr hm)
  simp [hne]

theorem countP_addr_of_mem (ms : List message_t) (e : message_t) (p : message_t → Bool)
    (hnd : (ms.map message_t.addr).Nodup) (he : e ∈ ms) :
    ms.countP (fun m => m.addr == e.addr && p m) = if p e = true then 1 else 0 := by
  induction ms with
  | nil => simp at he
  | cons x rest ih =>
    simp only [List.map_cons, List.nodup_cons] at hnd
    rw [List.countP_cons]
    rcases List.mem_cons.mp he with hx | hx
    · subst hx
      rw [countP_addr_of_not_mem _ _ p hnd.1]
      simp
    · have hne : x.addr ≠ e.addr := fun heq =>
        hnd.1 (heq ▸ List.mem_map_of_mem message_t.addr hx)
      rw [ih hnd.2 hx]
      simp [hne]

theorem countP_addr_of_mem' (ms : List message_t) (e : message_t)
    (hnd : (ms.map message_t.addr).Nodup) (he : e ∈ ms) :
    ms.countP (fun m => m.addr == e.addr) = 1 := by
  have h := countP_addr_of_mem ms e (fun _ => true) hnd he
  simpa using h

theorem eq_of_addr_eq (ms : List message_t) (m e : message_t)
    (hnd : (ms.map message_t.addr).Nodup) (hm : m ∈ ms) (he : e ∈ ms)
    (h : m.addr = e.addr) : m = e :=
  List.inj_on_of_nodup_map hnd hm he h

/-- The bookkeeping survives a call that unlinks a block of entries. -/
theorem lifecycle_inv_unlink (added : List message_t) (cancelled dropped : List Nat)
    (st st1 : rpc_state) (hinv : lifecycle_inv added cancelled st)
    (heff : unlink_effect st st1 dropped) :
    lifecycle_inv added (cancelled ++ dropped) st1 := by
  obtain ⟨pre, mid, post, hm, hm1, hcases⟩ := heff
  have hnd := hinv.pending_nodup
  rw [hm] at hnd
  simp only [List.map_append] at hnd
  have hmid_nd : (mid.map message_t.addr).Nodup :=
    (List.nodup_append.mp (List.nodup_append.mp hnd).1).2.1
  have hmid_mem : ∀ m ∈ mid, m ∈ st.messages := by
    intro m h; rw [hm]; simp [h]
  have hsub : ∀ e ∈ st1.messages, e ∈ st.messages := by
    intro e h; rw [hm1] at h; rw [hm]
    rcases List.mem_append.mp h with h | h <;> simp [h]
  have hnd1 : (st1.messages.map message_t.addr).Nodup := by
    rw [hm1]
    have hs : List.Sublist (pre ++ post) (pre ++ mid ++ post) := by
      rw [List.append_assoc]
      exact List.Sublist.append (List.Sublist.refl pre) (List.sublist_append_right mid post)
    have := List.Sublist.map message_t.addr hs
    refine List.Nodup.sublist this ?_
    simpa using hnd
  have hdisj : ∀ a ∈ mid.map message_t.addr, a ∉ st1.messages.map message_t.addr := by
    intro a ha h1
    rw [hm1, List.map_append, List.mem_append] at h1
    rw [List.nodup_append] at hnd
    obtain ⟨hpm, -, hd2⟩ := hnd
    rcases h1 with h1 | h1
    · exact (List.nodup_append.mp hpm).2.2 h1 ha
    · exact hd2 (List.mem_append_right _ ha) h1
  have hsplit : ∀ a, a ∉ mid.map message_t.addr → a ∉ st1.messages.map message_t.addr →
      a ∉ st.messages.map message_t.addr := by
    intro a h1 h2 h
    rw [hm, List.map_append, List.map_append] at h
    rw [hm1, List.map_append] at h2
    simp only [List.mem_append] at h h2
    tauto
  have hsub_addr : ∀ a, a ∉ st.messages.map message_t.addr →
      a ∉ st1.messages.map message_t.addr ∧ a ∉ mid.map message_t.addr := by
    intro a h
    constructor
    · intro h1
      obtain ⟨m, hm', rfl⟩ := List.mem_map.mp h1
      exact h (List.mem_map_of_mem _ (hsub m hm'))
    · intro h1
      obtain ⟨m, hm', rfl⟩ := List.mem_map.mp h1
      exact h (List.mem_map_of_mem _ (hmid_mem m hm'))
  have hadded_addr : ∀ a, a ∉ added.map message_t.addr →
      a ∉ st.messages.map message_t.addr := by
    intro a h h1
    obtain ⟨m, hm', rfl⟩ := List.mem_map.mp h1
    exact h (List.mem_map_of_mem _ (hinv.pending_added m hm'))
  rcases hcases with ⟨hdrop, hcount⟩ | ⟨hdrop, hcount⟩
  · -- the block is dropped, nothing is released
    subst hdrop
    refine ⟨hinv.added_nodup, hnd1, fun e he => hinv.pending_added e (hsub e he), ?_, ?_, ?_, ?_⟩
    · intro e he
      rw [(hcount e.addr).1, (hcount e.addr).2]
      exact hinv.pending_fresh e (hsub e he)
    · intro a ha
      rw [(hcount a).1, (hcount a).2]
      rcases List.mem_append.mp ha with ha | ha
      · obtain ⟨h1, h2, h3, h4⟩ := hinv.cancelled_fresh a ha
        exact ⟨h1, (hsub_addr a h2).1, h3, h4⟩
      · obtain ⟨m, hm', rfl⟩ := List.mem_map.mp ha
        obtain ⟨h3, h4⟩ := hinv.pending_fresh m (hmid_mem m hm')
        exact ⟨List.mem_map_of_mem _ (hinv.pending_added m (hmid_mem m hm')),
          hdisj _ ha, h3, h4⟩
    · intro e he h1 h2
      rw [(hcount e.addr).1, (hcount e.addr).2]
      rw [List.mem_append, not_or] at h2
      exact hinv.destroyed_once e he (hsplit _ h2.2 h1) h2.1
    · intro a ha
      rw [(hcount a).1, (hcount a).2]
      exact hinv.unknown_fresh a ha
  · -- the block is destroyed
    subst hdrop
    rw [List.append_nil]
    refine ⟨hinv.added_nodup, hnd1, fun e he => hinv.pending_added e (hsub e he), ?_, ?_, ?_, ?_⟩
    · intro e he
      have hnot : e.addr ∉ mid.map message_t.addr := fun h =>
        hdisj _ h (List.mem_map_of_mem _ he)
      rw [(hcount e.addr).1, (hcount e.addr).2, countP_addr_of_not_mem _ _ _ hnot,
        countP_addr_of_not_mem' _ _ hnot]
      exact hinv.pending_fresh e (hsub e he)
    · intro a ha
      obtain ⟨h1, h2, h3, h4⟩ := hinv.cancelled_fresh a ha
      have hnot := (hsub_addr a h2).2
      rw [(hcount a).1, (hcount a).2, countP_addr_of_not_mem _ _ _ hnot,
        countP_addr_of_not_mem' _ _ hnot]
      exact ⟨h1, (hsub_addr a h2).1, h3, h4⟩
    · intro e he h1 h2
      rw [(hcount e.addr).1, (hcount e.addr).2]
      by_cases hmid : e.addr ∈ mid.map message_t.addr
      · obtain ⟨m, hm', hma⟩ := List.mem_map.mp hmid
        have hme : m = e :=
          eq_of_addr_eq added m e hinv.added_nodup
            (hinv.pending_added m (hmid_mem m hm')) he hma
        subst hme
        obtain ⟨h3, h4⟩ := hinv.pending_fresh m (hmid_mem m hm')
        rw [h3, h4, countP_addr_of_mem mid m _ hmid_nd hm', countP_addr_of_mem' mid m hmid_nd hm']
        simp
      · rw [countP_addr_of_not_mem _ _ _ hmid, countP_addr_of_not_mem' _ _ hmid]
        exact hinv.destroyed_once e he (hsplit _ hmid h1) h2
    · intro a ha
      have hnot := (hsub_addr a (hadded_addr a ha)).2
      rw [(hcount a).1, (hcount a).2, countP_addr_of_not_mem _ _ _ hnot,
        countP_addr_of_not_mem' _ _ hnot]
      exact hinv.unknown_fresh a ha

/-- The bookkeeping survives the insertion of an entry that was not inserted before. -/
theorem lifecycle_inv_add (added : List message_t) (cancelled : List Nat) (st : rpc_state)
    (e : message_t) (hinv : lifecycle_inv added cancelled st)
    (hfresh : e.addr ∉ added.map message_t.addr) :
    lifecycle_inv (added ++ [e]) cancelled (rpc_add_message_entry_to_list (some e) st) := by
  have hpend : e.addr ∉ st.messages.map message_t.addr := by
    intro h
    obtain ⟨m, hm', hma⟩ := List.mem_map.mp h
    exact hfresh (hma ▸ List.mem_map_of_mem _ (hinv.pending_added m hm'))
  have hcanc : e.addr ∉ cancelled := fun h => hfresh (hinv.cancelled_fresh _ h).1
  simp only [rpc_add_message_entry_to_list]
  refine ⟨?_, ?_, ?_, ?_, ?_, ?_, ?_⟩
  · rw [List.map_append, List.nodup_append]
    refine ⟨hinv.added_nodup, by simp, ?_⟩
    intro a h1 h2
    simp only [List.map_cons, List.map_nil, List.mem_singleton] at h2
    subst h2
    exact hfresh h1
  · simp only [List.map_append, List.nodup_append]
    refine ⟨hinv.pending_nodup, by simp, ?_⟩
    intro a h1 h2
    simp only [List.map_cons, List.map_nil, List.mem_singleton] at h2
    subst h2
    exact hpend h1
  · intro m hm'
    rcases List.mem_append.mp hm' with h | h
    · exact List.mem_append_left _ (hinv.pending_added m h)
    · exact List.mem_append_right _ h
  · intro m hm'
    rcases List.mem_append.mp hm' with h | h
    · exact hinv.pending_fresh m h
    · simp only [List.mem_singleton] at h
      subst h
      exact hinv.unknown_fresh _ hfresh
  · intro a ha
    obtain ⟨h1, h2, h3, h4⟩ := hinv.cancelled_fresh a ha
    refine ⟨by simp [h1], ?_, h3, h4⟩
    simp only [List.map_append, List.mem_append, not_or]
    refine ⟨h2, ?_⟩
    simp only [List.map_cons, List.map_nil, List.mem_singleton]
    intro h
    subst h
    exact hcanc ha
  · intro m hm' h1 h2
    simp only [List.map_append, List.mem_append, not_or, List.map_cons, List.map_nil,
      List.mem_singleton] at h1
    rcases List.mem_append.mp hm' with h | h
    · exact hinv.destroyed_once m h h1.1 h2
    · simp only [List.mem_singleton] at h
      subst h
      exact absurd rfl h1.2
  · intro a ha
    simp only [List.map_append, List.mem_append, not_or] at ha
    exact hinv.unknown_fresh a ha.1

/-- The bookkeeping holds along every sequence of calls that inserts no entry twice. -/
theorem lifecycle_inv_run (ops : List rpc_op) (added : List message_t)
    (cancelled : List Nat) (st st1 : rpc_state) (hinv : lifecycle_inv added cancelled st)
    (hnd : ((added ++ added_entries ops).map message_t.addr).Nodup)
    (hrun : rpc_run ops st = some st1) :
    lifecycle_inv (added ++ added_entries ops) (cancelled ++ rpc_cancelled ops st) st1 := by
  induction ops generalizing added cancelled st with
  | nil =>
    simp only [rpc_run, Option.some.injEq] at hrun
    subst hrun
    simpa [added_entries, rpc_cancelled] using hinv
  | cons op ops ih =>
    cases hstep : rpc_step op st with
    | none => simp [rpc_run, hstep] at hrun
    | some st2 =>
      have hrun2 : rpc_run ops st2 = some st1 := by simpa [rpc_run, hstep] using hrun
      cases op with
      | add e =>
        simp only [rpc_step, Option.some.injEq] at hstep
        subst hstep
        have hnd2 : (((added ++ [e]) ++ added_entries ops).map message_t.addr).Nodup := by
          simpa [added_entries] using hnd
        have hfresh : e.addr ∉ added.map message_t.addr := by
          have h1 := (List.nodup_append.mp (by simpa using hnd2)).1
          have h2 : (added.map message_t.addr ++ [e.addr]).Nodup := by
            simpa using (List.nodup_append.mp (by simpa using hnd2 :
              ((added.map message_t.addr ++ [e.addr]) ++
                (added_entries ops).map message_t.addr).Nodup)).1
          intro h
          exact (List.nodup_append.mp h2).2.2 h (List.mem_singleton_self _)
        have := ih (added ++ [e]) cancelled _ (lifecycle_inv_add added cancelled st e hinv hfresh)
          hnd2 hrun2
        simpa [added_entries, rpc_cancelled, rpc_step, cancelled_by] using this
      | response r b t =>
        have hnd2 : ((added ++ added_entries ops).map message_t.addr).Nodup := by
          simpa [added_entries] using hnd
        simp only [rpc_step] at hstep
        cases hh : handle_response r b t st with
        | none => simp [hh] at hstep
        | some res =>
          obtain ⟨rc, st3⟩ := res
          simp only [hh, Option.map_some', Option.some.injEq] at hstep
          subst hstep
          have hinv2 := lifecycle_inv_unlink added cancelled [] st st3 hinv
            (handle_response_effect r b t st st3 rc hh)
          have := ih added (cancelled ++ []) st3 hinv2 hnd2 hrun2
          simpa [added_entries, rpc_cancelled, rpc_step, cancelled_by, hh] using this
      | remove k =>
        have hnd2 : ((added ++ added_entries ops).map message_t.addr).Nodup := by
          simpa [added_entries] using hnd
        simp only [rpc_step] at hstep
        have hinv2 := lifecycle_inv_unlink added cancelled _ st st2 hinv
          (remove_message_for_id_effect k st st2 hstep)
        have := ih added _ st2 hinv2 hnd2 hrun2
        simpa [added_entries, rpc_cancelled, rpc_step, hstep, List.append_assoc] using this
      | destroy =>
        have hnd2 : ((added ++ added_entries ops).map message_t.addr).Nodup := by
          simpa [added_entries] using hnd
        simp only [rpc_step, Option.some.injEq] at hstep
        subst hstep
        have hinv2 := lifecycle_inv_unlink added cancelled [] st _ hinv
          (rpc_destroy_messages_effect st)
        have := ih added (cancelled ++ []) _ hinv2 hnd2 hrun2
        simpa [added_entries, rpc_cancelled, rpc_step, cancelled_by] using this

theorem lifecycle_inv_empty : lifecycle_inv [] [] empty_state := by
  refine ⟨by simp, by simp [empty_state], by simp [empty_state], by simp [empty_state],
    by simp, by simp, ?_⟩
  intro a _
  simp [empty_state, release_count, free_count]

/-! ## Lemmas: the lookup as a prefix search -/

/-- An entry with a text identifier either has the key as a prefix of it or not. -/
theorem id_prefix_cases (k : String) (m : message_t) (h : has_text_id m) :
    id_starts_with k m ∨ id_without_prefix k m := by
  obtain ⟨sid, hsid⟩ := h
  by_cases hp : cstr k.data <+: cstr sid.data
  · exact Or.inl ⟨sid, hsid, hp⟩
  · exact Or.inr ⟨sid, hsid, hp⟩

theorem id_without_prefix_not_starts (k : String) (m : message_t)
    (h : id_without_prefix k m) : ¬ id_starts_with k m := by
  obtain ⟨sid, hsid, hp⟩ := h
  rintro ⟨sid2, hsid2, hp2⟩
  rw [hsid] at hsid2
  simp only [Option.some.injEq] at hsid2
  subst hsid2
  exact hp hp2

/-- One step of the scan at an entry with the text identifier `sid`. -/
theorem remove_scan_cons (k : String) (cur : message_t) (rest : List message_t)
    (sid : String) (h : entry_id cur = some sid) :
    remove_scan (some k) (cur :: rest) =
      if strncmp sid.data k.data (strlen k.data) = 0 then some (some cur, rest)
      else
        match remove_scan (some k) rest with
        | none => none
        | some (found, rest1) => some (found, cur :: rest1) := by
  unfold entry_id at h
  cases hg : json_object_get cur.json_message "id" with
  | none => rw [hg] at h; simp [json_string_value] at h
  | some id_obj =>
    rw [hg] at h
    rw [remove_scan]
    simp only [hg, h]

/-- One step of the scan at an entry without a text identifier: no result. -/
theorem remove_scan_cons_none (k : Option String) (cur : message_t) (rest : List message_t)
    (h : entry_id cur = none) : remove_scan k (cur :: rest) = none := by
  unfold entry_id at h
  rw [remove_scan]
  cases hg : json_object_get cur.json_message "id" with
  | none => rfl
  | some id_obj =>
    rw [hg] at h
    simp only [h]

/-- The scan returns the first entry whose identifier starts with the key. -/
theorem remove_scan_first_prefix (k : String) (pre post : List message_t) (e : message_t)
    (hpre : ∀ m ∈ pre, id_without_prefix k m) (he : id_starts_with k e) :
    remove_scan (some k) (pre ++ e :: post) = some (some e, pre ++ post) := by
  induction pre with
  | nil =>
    obtain ⟨sid, hsid, hp⟩ := he
    have h3 := (strncmp_strlen_eq_zero_iff sid.data k.data).mpr hp
    simp [remove_scan_cons k e post sid hsid, h3]
  | cons m rest ih =>
    obtain ⟨mid, hm1, hm2⟩ := hpre m (List.mem_cons_self _ _)
    have h3 : strncmp mid.data k.data (strlen k.data) ≠ 0 := fun h =>
      hm2 ((strncmp_strlen_eq_zero_iff mid.data k.data).mp h)
    have ih2 := ih (fun x hx => hpre x (List.mem_cons_of_mem _ hx))
    rw [List.cons_append, remove_scan_cons k m _ mid hm1]
    simp [h3, ih2]

/-- The scan finds nothing when no identifier starts with the key. -/
theorem remove_scan_no_prefix (k : String) (ms : List message_t)
    (h : ∀ m ∈ ms, id_without_prefix k m) :
    remove_scan (some k) ms = some (none, ms) := by
  induction ms with
  | nil => rfl
  | cons m rest ih =>
    obtain ⟨mid, hm1, hm2⟩ := h m (List.mem_cons_self _ _)
    have h3 : strncmp mid.data k.data (strlen k.data) ≠ 0 := fun h =>
      hm2 ((strncmp_strlen_eq_zero_iff mid.data k.data).mp h)
    have ih2 := ih (fun x hx => h x (List.mem_cons_of_mem _ hx))
    rw [remove_scan_cons k m _ mid hm1]
    simp [h3, ih2]

/-- What a result of the scan says about the list. -/
theorem remove_scan_result (k : String) (ms rest : List message_t) (found : Option message_t)
    (h : remove_scan (some k) ms = some (found, rest)) :
    (found = none → rest = ms ∧ ∀ m ∈ ms, id_without_prefix k m) ∧
    (∀ e, found = some e → ∃ pre post, ms = pre ++ e :: post ∧ rest = pre ++ post ∧
      (∀ m ∈ pre, id_without_prefix k m) ∧ id_starts_with k e) := by
  induction ms generalizing rest found with
  | nil =>
    simp only [remove_scan, Option.some.injEq, Prod.mk.injEq] at h
    obtain ⟨h1, h2⟩ := h
    subst h1 h2
    simp
  | cons cur tl ih =>
    cases hid : entry_id cur with
    | none => rw [remove_scan_cons_none _ cur tl hid] at h; simp at h
    | some sid =>
      rw [remove_scan_cons k cur tl sid hid] at h
      by_cases h0 : strncmp sid.data k.data (strlen k.data) = 0
      · simp only [h0, if_true, Option.some.injEq, Prod.mk.injEq] at h
        obtain ⟨h1, h2⟩ := h
        subst h1 h2
        refine ⟨fun hn => by simp at hn, ?_⟩
        intro e he
        simp only [Option.some.injEq] at he
        subst he
        exact ⟨[], tl, rfl, rfl, by simp,
          ⟨sid, hid, (strncmp_strlen_eq_zero_iff sid.data k.data).mp h0⟩⟩
      · have hcur : id_without_prefix k cur :=
          ⟨sid, hid, fun hp => h0 ((strncmp_strlen_eq_zero_iff sid.data k.data).mpr hp)⟩
        simp only [h0, if_false] at h
        cases hrec : remove_scan (some k) tl with
        | none => simp [hrec] at h
        | some r =>
          obtain ⟨found1, rest1⟩ := r
          simp only [hrec, Option.some.injEq, Prod.mk.injEq] at h
          obtain ⟨h1, h2⟩ := h
          subst h1 h2
          obtain ⟨ihn, ihs⟩ := ih rest1 found1 hrec
          constructor
          · intro hn
            obtain ⟨hr, hall⟩ := ihn hn
            refine ⟨by rw [hr], ?_⟩
            intro m hm
            rcases List.mem_cons.mp hm with hm | hm
            · subst hm; exact hcur
            · exact hall m hm
          · intro e he
            obtain ⟨pre, post, hp1, hp2, hp3, hp4⟩ := ihs e he
            refine ⟨cur :: pre, post, by simp [hp1], by simp [hp2], ?_, hp4⟩
            intro m hm
            rcases List.mem_cons.mp hm with hm | hm
            · subst hm; exact hcur
            · exact hp3 m hm

/-- The scan has a result when every entry has a text identifier. -/
theorem remove_scan_total (k : String) (ms : List message_t)
    (h : ∀ m ∈ ms, has_text_id m) : ∃ r, remove_scan (some k) ms = some r := by
  induction ms with
  | nil => exact ⟨_, rfl⟩
  | cons cur tl ih =>
    obtain ⟨sid, hid⟩ := h cur (List.mem_cons_self _ _)
    obtain ⟨r, hr⟩ := ih (fun x hx => h x (List.mem_cons_of_mem _ hx))
    rw [remove_scan_cons k cur tl sid hid, hr]
    by_cases h0 : strncmp sid.data k.data (strlen k.data) = 0
    · exact ⟨(some cur, tl), by simp [h0]⟩
    · exact ⟨(r.1, cur :: r.2), by simp [h0]⟩

/-! ## Lemmas: the slow-callback warning -/

/-- When an entry is found, the calls made by `handle_response` contain the slow-callback
warning exactly when the elapsed time is at least `WARN_CALLBACK_RUNTIME`. -/
theorem slow_warnings_found (response : Option json_t) (begin_time end_time : Nat)
    (st st1 : rpc_state) (e : message_t) (rid : Option String)
    (h : remove_message_for_response response st = some (some e, rid, st1)) :
    ∃ rc st2 new, handle_response response begin_time end_time st = some (rc, st2) ∧
      st2.trace = st.trace ++ new ∧
      slow_warnings new =
        if WARN_CALLBACK_RUNTIME ≤ elapsed_u64 begin_time end_time then
          [event.log (log_t.callback_slow WARN_CALLBACK_RUNTIME
            (elapsed_u64 begin_time end_time))]
        else [] := by
  refine ⟨_, _, _, handle_response_found response begin_time end_time st st1 e rid h, rfl, ?_⟩
  cases hres : (json_object_get response "result").isSome <;>
    by_cases hw : WARN_CALLBACK_RUNTIME ≤ elapsed_u64 begin_time end_time <;>
    cases hf : e.free_func <;>
    simp [hw, hf, slow_warnings, is_slow_warning, dealloc_events_eq]

/-- When no entry is found, `handle_response` writes no slow-callback warning. -/
theorem slow_warnings_not_found (response : Option json_t) (begin_time end_time : Nat)
    (st st1 : rpc_state) (rid : Option String)
    (h : remove_message_for_response response st = some (none, rid, st1)) :
    ∃ st2 new, handle_response response begin_time end_time st = some (0, st2) ∧
      st2.trace = st.trace ++ new ∧ slow_warnings new = [] := by
  obtain ⟨-, ht⟩ := remove_message_for_response_not_found response st st1 rid h
  rw [handle_response_not_found response begin_time end_time st st1 rid h]
  rcases ht with ht | ⟨-, ht⟩
  · exact ⟨_, [event.log (log_t.no_match rid)], rfl, by simp [emit, ht], rfl⟩
  · exact ⟨_, [event.log log_t.no_id_in_response, event.log (log_t.no_match rid)], rfl,
      by simp [emit, ht], rfl⟩

/-! ## Lemmas: results of the lookup functions -/

/-- A result of `_remove_message_for_id` is a result of the scan over the list. -/
theorem remove_message_for_id_scan (k : Option String) (st st1 : rpc_state)
    (found : Option message_t) (h : _remove_message_for_id k st = some (found, st1)) :
    ∃ rest, remove_scan k st.messages = some (found, rest) ∧
      st1 = { messages := rest, trace := st.trace } := by
  unfold _remove_message_for_id at h
  split at h
  · simp at h
  · rename_i found2 rest hscan
    simp only [Option.some.injEq, Prod.mk.injEq] at h
    obtain ⟨h1, h2⟩ := h
    subst h1 h2
    exact ⟨rest, hscan, rfl⟩

/-- The lookup for a response has a result when every pending entry has a text identifier
and the response has no "id" or a text "id". -/
theorem remove_message_for_response_total (response : Option json_t) (st : rpc_state)
    (hwf : ∀ m ∈ st.messages, has_text_id m)
    (hid : json_object_get response "id" = none ∨
      ∃ s, json_object_get response "id" = some (json_t.string s)) :
    ∃ r, remove_message_for_response response st = some r := by
  rcases hid with hid | ⟨s, hid⟩
  · exact ⟨(none, none, emit st (event.log log_t.no_id_in_response)),
      by simp [remove_message_for_response, hid]⟩
  · obtain ⟨r, hr⟩ := remove_scan_total s st.messages hwf
    exact ⟨(r.1, some s, { messages := r.2, trace := st.trace }),
      by simp [remove_message_for_response, hid, json_string_value, _remove_message_for_id, hr]⟩

/-- The function `handle_response` returns whenever its lookup has a result: the return code
is 1 when an entry was found and the response has no "result", 0 otherwise, and the list is
the one the lookup left. -/
theorem handle_response_of_lookup (response : Option json_t) (begin_time end_time : Nat)
    (st st1 : rpc_state) (found : Option message_t) (rid : Option String)
    (h : remove_message_for_response response st = some (found, rid, st1)) :
    ∃ st2, handle_response response begin_time end_time st =
      some ((if found.isSome = true ∧ (json_object_get response "result").isSome = false
        then 1 else 0), st2) ∧ st2.messages = st1.messages := by
  have key : (handle_response response begin_time end_time st).map Prod.fst =
        some (if found.isSome = true ∧ (json_object_get response "result").isSome = false
          then 1 else 0) ∧
      (handle_response response begin_time end_time st).map (fun r => r.2.messages) =
        some st1.messages := by
    cases found with
    | none =>
      rw [handle_response_not_found response begin_time end_time st st1 rid h]
      simp [emit]
    | some e =>
      rw [handle_response_found response begin_time end_time st st1 e rid h]
      cases hres : (json_object_get response "result").isSome <;> simp
  cases hh : handle_response response begin_time end_time st with
  | none => rw [hh] at key; simp at key
  | some r =>
    rw [hh] at key
    simp only [Option.map_some', Option.some.injEq] at key
    exact ⟨r.2, by rw [← key.1], key.2⟩

/-- The result of `handle_response` on a response without "id". -/
theorem handle_response_without_id (response : Option json_t)
    (begin_time end_time : Nat) (st : rpc_state)
    (hid : json_object_get response "id" = none) :
    handle_response response begin_time end_time st =
      some (0, { messages := st.messages,
                 trace := st.trace ++ [event.log log_t.no_id_in_response,
                   event.log (log_t.no_match none)] }) := by
  simp [handle_response, remove_message_for_response, hid, emit]

/-- When the lookup of `handle_response` returns the entry `e`, among the calls made there is
exactly one handler call, on (response, `e`'s request context): `e`'s success handler with
return code 0 when the response has a "result" member, `e`'s failure handler with return code
1 when it has none. -/
theorem handle_response_one_handler_of_lookup (response : Option json_t) (begin_time end_time : Nat)
    (st st1 : rpc_state) (e : message_t) (rid : Option String)
    (hfound : remove_message_for_response response st = some (some e, rid, st1)) :
    ∃ rc st2 new, handle_response response begin_time end_time st = some (rc, st2) ∧
      st2.trace = st.trace ++ new ∧
      ((json_object_get response "result").isSome = true →
        rc = 0 ∧ handler_calls new =
          [event.success_handler e.addr e.success_handler response e.request_context]) ∧
      ((json_object_get response "result").isSome = false →
        rc = 1 ∧ handler_calls new =
          [event.failure_handler e.addr e.failure_handler response e.request_context]) := by
  refine ⟨_, _, _, handle_response_found response begin_time end_time st st1 e rid hfound,
    rfl, ?_, ?_⟩
  · intro hres
    refine ⟨by simp [hres], ?_⟩
    by_cases hw : WARN_CALLBACK_RUNTIME ≤ elapsed_u64 begin_time end_time <;>
      cases hf : e.free_func <;>
      simp [hres, hw, hf, handler_calls, is_handler_call, dealloc_events_eq]
  · intro hres
    refine ⟨by simp [hres], ?_⟩
    by_cases hw : WARN_CALLBACK_RUNTIME ≤ elapsed_u64 begin_time end_time <;>
      cases hf : e.free_func <;>
      simp [hres, hw, hf, handler_calls, is_handler_call, dealloc_events_eq]

/-- When the lookup of `remove_message_for_id` returns the entry `e`, the function returns
with `e` unlinked and makes no external call. -/
theorem remove_message_for_id_of_lookup (k : Option String) (st st1 : rpc_state)
    (e : message_t) (hfound : _remove_message_for_id k st = some (some e, st1)) :
    remove_message_for_id k st = some st1 ∧
    (∃ pre post, st.messages = pre ++ e :: post ∧ st1.messages = pre ++ post) ∧
    st1.trace = st.trace ∧
    handler_calls st1.trace = handler_calls st.trace ∧
    release_count e.addr st1.trace = release_count e.addr st.trace ∧
    free_count e.addr st1.trace = free_count e.addr st.trace := by
  have htr : st1.trace = st.trace ∧
      ∃ pre post, st.messages = pre ++ e :: post ∧ st1.messages = pre ++ post := by
    unfold _remove_message_for_id at hfound
    split at hfound
    · simp at hfound
    · rename_i found rest hscan
      simp only [Option.some.injEq, Prod.mk.injEq] at hfound
      obtain ⟨h1, h2⟩ := hfound
      subst h1 h2
      exact ⟨rfl, remove_scan_found k st.messages _ _ hscan⟩
  refine ⟨by simp [remove_message_for_id, hfound], htr.2, htr.1, ?_, ?_, ?_⟩ <;> rw [htr.1]

/-- The results of `rpc_construct_message`: error code 1 and no entry when the payload is
null, an output location is null, or serialisation fails; otherwise, when `calloc` returned
an address, code 0 with an entry bound to the payload, the handlers, the release function and
the request context; and a call that returns gives code 0 with an entry exactly when none of
the four failure conditions holds. -/
theorem rpc_construct_message_result (env : rpc_env) (message : Option json_t)
    (success_handler failure_handler : Nat) (free_func : Option Nat) (request_context : Nat)
    (data message_id : Bool) (st : rpc_state) :
    ((message = none ∨ data = false ∨ message_id = false ∨
        ∃ msg, message = some msg ∧
          env.json_dumps (json_object_set_new msg "id" (json_string env.generate_msg_id)) =
            none) →
      ∃ out st1, rpc_construct_message env message success_handler failure_handler free_func
          request_context data message_id st = some (out, st1) ∧
        out.rc = 1 ∧ out.rc ≠ 0 ∧ out.returned_msg_entry = none) ∧
    (¬ (message = none ∨ data = false ∨ message_id = false ∨
        ∃ msg, message = some msg ∧
          env.json_dumps (json_object_set_new msg "id" (json_string env.generate_msg_id)) =
            none) →
      ∀ addr, env.calloc = some addr →
        ∃ out st1 msg, rpc_construct_message env message success_handler failure_handler
            free_func request_context data message_id st = some (out, st1) ∧
          message = some msg ∧ out.rc = 0 ∧
          out.returned_msg_entry = some
            { addr := addr,
              json_message := some (json_object_set_new msg "id"
                (json_string env.generate_msg_id)),
              id := none,
              request_context := request_context,
              success_handler := success_handler,
              failure_handler := failure_handler,
              free_func := free_func }) ∧
    (∀ out st1, rpc_construct_message env message success_handler failure_handler free_func
        request_context data message_id st = some (out, st1) →
      ((out.rc = 0 ∧ out.returned_msg_entry ≠ none) ↔
        ¬ (message = none ∨ data = false ∨ message_id = false ∨
          ∃ msg, message = some msg ∧
            env.json_dumps (json_object_set_new msg "id" (json_string env.generate_msg_id)) =
              none))) := by
  cases message with
  | none =>
    refine ⟨fun _ => ⟨_, _, rfl, rfl, by simp, rfl⟩, fun h => absurd (Or.inl rfl) h, ?_⟩
    intro out st1 h
    simp only [rpc_construct_message, Option.some.injEq, Prod.mk.injEq] at h
    obtain ⟨h1, -⟩ := h
    subst h1
    simp
  | some msg =>
    by_cases hout : data = false ∨ message_id = false
    · have hrun : rpc_construct_message env (some msg) success_handler failure_handler
          free_func request_context data message_id st =
          some ({ rc := 1, returned_msg_entry := none, data := none, message_id := none,
                  message := some msg }, emit st (event.log log_t.null_output)) := by
        simp [rpc_construct_message, hout]
      refine ⟨fun _ => ⟨_, _, hrun, rfl, by simp, rfl⟩, fun h => ?_, ?_⟩
      · exact absurd (hout.elim (fun h1 => Or.inr (Or.inl h1))
          (fun h1 => Or.inr (Or.inr (Or.inl h1)))) h
      · intro out st1 h
        rw [hrun] at h
        simp only [Option.some.injEq, Prod.mk.injEq] at h
        obtain ⟨h1, -⟩ := h
        subst h1
        refine ⟨fun hh => absurd hh.1 (by simp), fun hh => ?_⟩
        exact absurd (hout.elim (fun h1 => Or.inr (Or.inl h1))
          (fun h1 => Or.inr (Or.inr (Or.inl h1)))) hh
    · cases hd : env.json_dumps
          (json_object_set_new msg "id" (json_string env.generate_msg_id)) with
      | none =>
        have hrun : rpc_construct_message env (some msg) success_handler failure_handler
            free_func request_context data message_id st =
            some ({ rc := 1, returned_msg_entry := none, data := none,
                    message_id := env.generate_msg_id,
                    message := some (json_object_set_new msg "id"
                      (json_string env.generate_msg_id)) },
                  emit st (event.log log_t.serialize_failed)) := by
          simp [rpc_construct_message, hout, hd]
        refine ⟨fun _ => ⟨_, _, hrun, rfl, by simp, rfl⟩, fun h => ?_, ?_⟩
        · exact absurd (Or.inr (Or.inr (Or.inr ⟨msg, rfl, hd⟩))) h
        · intro out st1 h
          rw [hrun] at h
          simp only [Option.some.injEq, Prod.mk.injEq] at h
          obtain ⟨h1, -⟩ := h
          subst h1
          simp [hd]
      | some bytes =>
        have hno : ¬ (some msg = none ∨ data = false ∨ message_id = false ∨
            ∃ m, some msg = some m ∧
              env.json_dumps (json_object_set_new m "id" (json_string env.generate_msg_id)) =
                none) := by
          rintro (h | h | h | ⟨m, hm, hnone⟩)
          · simp at h
          · exact hout (Or.inl h)
          · exact hout (Or.inr h)
          · simp only [Option.some.injEq] at hm
            subst hm
            rw [hd] at hnone
            simp at hnone
        refine ⟨fun h => absurd h hno, fun _ addr hc => ?_, ?_⟩
        · have hrun : rpc_construct_message env (some msg) success_handler failure_handler
              free_func request_context data message_id st =
              some ({ rc := 0,
                      returned_msg_entry := some
                        { addr := addr,
                          json_message := some (json_object_set_new msg "id"
                            (json_string env.generate_msg_id)),
                          id := none,
                          request_context := request_context,
                          success_handler := success_handler,
                          failure_handler := failure_handler,
                          free_func := free_func },
                      data := some bytes,
                      message_id := env.generate_msg_id,
                      message := some (json_object_set_new msg "id"
                        (json_string env.generate_msg_id)) },
                    if free_func.isNone then emit st (event.log log_t.no_free_func_given)
                    else st) := by
            simp only [rpc_construct_message, hout, if_false, hd, alloc_message, hc]
          exact ⟨_, _, msg, hrun, rfl, rfl, rfl⟩
        · intro out st1 h
          refine ⟨fun _ => hno, fun _ => ?_⟩
          simp only [rpc_construct_message, hout, if_false, hd, alloc_message] at h
          cases hc : env.calloc with
          | none => simp [hc] at h
          | some addr =>
            simp only [hc, Option.some.injEq, Prod.mk.injEq] at h
            obtain ⟨h1, -⟩ := h
            subst h1
            simp

/-! ## Lemmas: the sample serialiser and parser -/

theorem takeWhile_append_stop {α : Type} (p : α → Bool) (l rest : List α) (c : α)
    (hl : ∀ x ∈ l, p x = true) (hc : p c = false) :
    (l ++ c :: rest).takeWhile p = l := by
  induction l with
  | nil => simp [List.takeWhile_cons, hc]
  | cons x xs ih =>
    have hx := hl x (List.mem_cons_self _ _)
    simp [List.takeWhile_cons, hx, ih (fun y hy => hl y (List.mem_cons_of_mem _ hy))]

/-- The sample parser reads back the "id" of every document the sample serialiser writes. -/
theorem sample_loads_dumps (doc : json_t) (bytes : String)
    (h : sample_dumps doc = some bytes) :
    ∃ doc1, sample_loads bytes = some doc1 ∧
      json_object_get (some doc1) "id" = json_object_get (some doc) "id" := by
  unfold sample_dumps at h
  split at h
  · rename_i members
    split at h
    · rename_i s hlook
      split at h
      · rename_i hplain
        split at h
        · rename_i others hothers
          simp only [Option.some.injEq] at h
          subst h
          have hs : ∀ x ∈ s.data, (fun c : Char => c.toNat != 34) x = true := by
            intro x hx
            have := (List.all_eq_true.mp hplain) x hx
            simp only [Bool.and_eq_true] at this
            exact this.1
          have htake := takeWhile_append_stop (fun c : Char => c.toNat != 34) s.data
            (others ++ "\x7d".data) (Char.ofNat 34) hs (by decide)
          refine ⟨json_t.object [("id", json_t.string s)], ?_, ?_⟩
          · have hdata : ("\x7b\"id\":\"".data ++ s.data ++ "\"".data ++ others ++ "\x7d".data) =
                "\x7b\"id\":\"".data ++ (s.data ++ Char.ofNat 34 :: (others ++ "\x7d".data)) := by
              simp [List.append_assoc]
            have hpre : "\x7b\"id\":\"".data.isPrefixOf
                ("\x7b\"id\":\"".data ++ (s.data ++ Char.ofNat 34 :: (others ++ "\x7d".data))) =
                true := by
              rw [List.isPrefixOf_iff_prefix]
              exact List.prefix_append _ _
            have hdrop : ("\x7b\"id\":\"".data ++
                (s.data ++ Char.ofNat 34 :: (others ++ "\x7d".data))).drop 7 =
                s.data ++ Char.ofNat 34 :: (others ++ "\x7d".data) :=
              List.drop_left' (by rfl)
            unfold sample_loads
            simp only [hdata, hpre, if_true, hdrop, htake]
          · simp [json_object_get, hlook, List.lookup]
        · simp at h
      · simp at h
    · simp at h
  · simp at h

/-- The return code of `handle_response` whenever its lookup has a result: 1 when an entry
was found and the response has no "result" member, 0 otherwise (after the success handler,
on a miss, and without "id"); the lookup has a result when every pending entry has a text
identifier and the "id" of the response, if it has one, is a text. -/
theorem handle_response_return_code (response : Option json_t)
    (begin_time end_time : Nat) (st : rpc_state) :
    (∀ found rid st1, remove_message_for_response response st = some (found, rid, st1) →
      ∃ st2, handle_response response begin_time end_time st =
        some ((if found.isSome = true ∧ (json_object_get response "result").isSome = false
          then 1 else 0), st2)) ∧
    (∀ rc st2, handle_response response begin_time end_time st = some (rc, st2) →
      (rc = 1 ↔
        (∃ e rid st1, remove_message_for_response response st = some (some e, rid, st1)) ∧
          (json_object_get response "result").isSome = false) ∧
      (rc ≠ 1 → rc = 0)) ∧
    (∀ e rid st1, remove_message_for_response response st = some (some e, rid, st1) →
      (json_object_get response "result").isSome = true →
      ∃ st2, handle_response response begin_time end_time st = some (0, st2)) ∧
    (∀ rid st1, remove_message_for_response response st = some (none, rid, st1) →
      ∃ st2, handle_response response begin_time end_time st = some (0, st2)) ∧
    (json_object_get response "id" = none →
      ∃ st2, handle_response response begin_time end_time st = some (0, st2)) ∧
    ((∀ m ∈ st.messages, has_text_id m) →
      (json_object_get response "id" = none ∨
        ∃ s, json_object_get response "id" = some (json_t.string s)) →
      ∃ rc st2, handle_response response begin_time end_time st = some (rc, st2)) := by
  have hcode : ∀ found rid st1,
      remove_message_for_response response st = some (found, rid, st1) →
      ∃ st2, handle_response response begin_time end_time st =
        some ((if found.isSome = true ∧ (json_object_get response "result").isSome = false
          then 1 else 0), st2) := by
    intro found rid st1 h
    obtain ⟨st2, h2, -⟩ := handle_response_of_lookup response begin_time end_time st st1
      found rid h
    exact ⟨st2, h2⟩
  refine ⟨hcode, ?_, ?_, ?_, ?_, ?_⟩
  · intro rc st2 hh
    cases hl : remove_message_for_response response st with
    | none => simp [handle_response, hl] at hh
    | some r =>
      obtain ⟨found, rid, st1⟩ := r
      obtain ⟨st3, h3⟩ := hcode found rid st1 hl
      rw [h3] at hh
      simp only [Option.some.injEq, Prod.mk.injEq] at hh
      obtain ⟨hrc, -⟩ := hh
      subst hrc
      cases found with
      | none => simp
      | some e =>
        cases hres : (json_object_get response "result").isSome
        · simp
        · simp
  · intro e rid st1 h hres
    obtain ⟨st2, h2⟩ := hcode (some e) rid st1 h
    exact ⟨st2, by simpa [hres] using h2⟩
  · intro rid st1 h
    obtain ⟨st2, h2⟩ := hcode none rid st1 h
    exact ⟨st2, by simpa using h2⟩
  · intro hid
    exact ⟨_, (handle_response_without_id response begin_time end_time st hid)⟩
  · intro hwf hid
    obtain ⟨r, hr⟩ := remove_message_for_response_total response st hwf hid
    obtain ⟨st2, h2⟩ := hcode r.1 r.2.1 r.2.2 hr
    exact ⟨_, st2, h2⟩

/-! ## Claims -/

/-- C1, at the failing input: the entries "12" (address 1, context 7, handlers 100 and 200)
and "1" (address 2, context 8, handlers 101 and 201) are pending, in this order, and the
success response with "id" = "1" arrives.  The response correlates to the entry "1", but the
handler that runs is the success handler 100 of the entry "12", on the context 7; the entry
"12" is destroyed and the entry "1" stays pending, its handler never called. -/
theorem C1_response_1_runs_handler_of_12 :
    entry_id (sample_entry 1 "12" 7) = some "12" ∧
    entry_id { sample_entry 2 "1" 8 with success_handler := 101, failure_handler := 201 } =
      some "1" ∧
    json_string_value (json_object_get (some (success_response "1")) "id") = some "1" ∧
    handle_response (some (success_response "1")) 0 0
        { messages := [sample_entry 1 "12" 7,
            { sample_entry 2 "1" 8 with success_handler := 101, failure_handler := 201 }],
          trace := [] } =
      some (0, { messages :=
                   [{ sample_entry 2 "1" 8 with success_handler := 101, failure_handler := 201 }],
                 trace := [event.success_handler 1 100 (some (success_response "1")) 7,
                   event.log (log_t.callback_time 0),
                   event.json_decref 1 (some (request_with_id "12")),
                   event.free_func 1 300 7,
                   event.free 1] }) ∧
    handler_calls [event.success_handler 1 100 (some (success_response "1")) 7,
        event.log (log_t.callback_time 0),
        event.json_decref 1 (some (request_with_id "12")),
        event.free_func 1 300 7,
        event.free 1] =
      [event.success_handler 1 100 (some (success_response "1")) 7] :=
  ⟨rfl, rfl, rfl, rfl, rfl⟩

/-- C2, at the failing input: one request (N = 1) is built with identifier "12" and
inserted, then the single response with identifier "1" is delivered.  No response identifier
equals a pending identifier, so the claimed final size is 1 - 0 = 1; the registry is empty
instead. -/
theorem C2_one_request_12_one_response_1 :
    ∃ out st1 st3,
      rpc_construct_message (sample_env "12" (sample_bytes "12") 1) (some sample_request) 100 200
        (some 300) 7 true true empty_state = some (out, st1) ∧
      out.rc = 0 ∧ out.message_id = some "12" ∧
      (out.returned_msg_entry.map entry_id) = some (some "12") ∧
      rpc_message_list_size (rpc_add_message_entry_to_list out.returned_msg_entry st1) = 1 ∧
      json_string_value (json_object_get (some (success_response "1")) "id") = some "1" ∧
      ("1" : String) ≠ "12" ∧
      handle_response (some (success_response "1")) 0 0
        (rpc_add_message_entry_to_list out.returned_msg_entry st1) = some (0, st3) ∧
      rpc_message_list_size st3 = 0 :=
  ⟨_, _, _, rfl, rfl, rfl, rfl, rfl, rfl, by decide, rfl, rfl⟩

/-- C3, at the failing input: the only pending identifier is "12" and the response carries
the different identifier "1".  `handle_response` does not report a miss: it unlinks the entry,
calls its failure handler, destroys it (release function included) and returns 1. -/
theorem C3_response_1_consumes_identifier_12 :
    entry_id (sample_entry 1 "12" 7) = some "12" ∧
    json_string_value (json_object_get (some (error_response "1")) "id") = some "1" ∧
    ("1" : String) ≠ "12" ∧
    handle_response (some (error_response "1")) 0 0 state_with_12 =
      some (1, { messages := [],
                 trace := [event.failure_handler 1 200 (some (error_response "1")) 7,
                   event.log (log_t.callback_time 0),
                   event.json_decref 1 (some (request_with_id "12")),
                   event.free_func 1 300 7,
                   event.free 1] }) :=
  ⟨rfl, rfl, by decide, rfl⟩

/-- C4, at the failing input: the only pending entry has identifier "12", the search key is
"1".  No pending identifier equals the key, yet `_remove_message_for_id` finds and unlinks
the entry, because the comparison stops after the length of the key. -/
theorem C4_key_1_removes_identifier_12 :
    entry_id (sample_entry 1 "12" 7) = some "12" ∧
    ("12" : String) ≠ "1" ∧
    _remove_message_for_id (some "1") state_with_12 =
      some (some (sample_entry 1 "12" 7), empty_state) :=
  ⟨rfl, by decide, rfl⟩

/-- C5: whenever `handle_response` removes an entry `e`, it returns, and after the handler
call and the timing lines it destroys `e`: the payload is released (`json_decref`), the
release function, if `e` has one, is called exactly once with `e`'s request context, and `e`
is freed, in this order and after the handler.  `e` is unlinked from the list, so (addresses
being distinct) it is no longer in the registry. -/
theorem C5_handle_response_destroys_found (response : Option json_t)
    (begin_time end_time : Nat) (st st1 : rpc_state) (e : message_t) (rid : Option String)
    (hfound : remove_message_for_response response st = some (some e, rid, st1)) :
    ∃ rc st2 handler timing pre post,
      handle_response response begin_time end_time st = some (rc, st2) ∧
      is_handler_call handler = true ∧
      (∀ ev ∈ timing, ∃ line, ev = event.log line) ∧
      st2.trace = st.trace ++ handler :: timing ++
        [event.json_decref e.addr e.json_message,
         (match e.free_func with
           | some f => event.free_func e.addr f e.request_context
           | none => event.log log_t.free_func_was_null),
         event.free e.addr] ∧
      release_calls (handler :: timing ++ dealloc_events e) =
        (match e.free_func with
          | some f => [event.free_func e.addr f e.request_context]
          | none => []) ∧
      st.messages = pre ++ e :: post ∧ st2.messages = pre ++ post ∧
      ((st.messages.map message_t.addr).Nodup → e.addr ∉ st2.messages.map message_t.addr) := by
  obtain ⟨rest, hscan, hst1, -⟩ := remove_message_for_response_found response st st1 e rid hfound
  obtain ⟨pre, post, hpre, hrest⟩ := remove_scan_found rid st.messages rest e hscan
  refine ⟨_, _,
    (if (json_object_get response "result").isSome then
        event.success_handler e.addr e.success_handler response e.request_context
      else event.failure_handler e.addr e.failure_handler response e.request_context),
    event.log (log_t.callback_time (elapsed_u64 begin_time end_time)) ::
      (if WARN_CALLBACK_RUNTIME ≤ elapsed_u64 begin_time end_time then
          [event.log (log_t.callback_slow WARN_CALLBACK_RUNTIME
            (elapsed_u64 begin_time end_time))]
        else []),
    pre, post,
    handle_response_found response begin_time end_time st st1 e rid hfound, ?_, ?_, ?_, ?_,
    hpre, ?_, ?_⟩
  · cases (json_object_get response "result").isSome <;> simp [is_handler_call]
  · intro ev hev
    by_cases hw : WARN_CALLBACK_RUNTIME ≤ elapsed_u64 begin_time end_time
    · simp [hw] at hev
      rcases hev with hev | hev
      · exact ⟨_, hev⟩
      · exact ⟨_, hev⟩
    · simp [hw] at hev
      exact ⟨_, hev⟩
  · simp [dealloc_events_eq]
  · cases hres : (json_object_get response "result").isSome <;>
      by_cases hw : WARN_CALLBACK_RUNTIME ≤ elapsed_u64 begin_time end_time <;>
      cases hf : e.free_func <;>
      simp [hw, hf, release_calls, is_release_call, dealloc_events_eq]
  · simp [hst1, hrest]
  · intro hnd
    simp only [hst1, hrest]
    rw [hpre] at hnd
    exact addr_not_mem_of_nodup pre post e hnd

/-- C5, at a success response for the first of two pending entries. -/
theorem C5_handle_response_destroys_found_witness :
    remove_message_for_response (some (success_response "1"))
        { messages := [sample_entry 1 "1" 7, sample_entry 2 "2" 8], trace := [] } =
      some (some (sample_entry 1 "1" 7), some "1",
        { messages := [sample_entry 2 "2" 8], trace := [] }) ∧
    ∃ rc st2 handler timing pre post,
      handle_response (some (success_response "1")) 0 10
        { messages := [sample_entry 1 "1" 7, sample_entry 2 "2" 8], trace := [] } =
          some (rc, st2) ∧
      is_handler_call handler = true ∧
      (∀ ev ∈ timing, ∃ line, ev = event.log line) ∧
      st2.trace = [] ++ handler :: timing ++
        [event.json_decref 1 (some (request_with_id "1")),
         event.free_func 1 300 7,
         event.free 1] ∧
      release_calls (handler :: timing ++ dealloc_events (sample_entry 1 "1" 7)) =
        [event.free_func 1 300 7] ∧
      [sample_entry 1 "1" 7, sample_entry 2 "2" 8] = pre ++ sample_entry 1 "1" 7 :: post ∧
      st2.messages = pre ++ post ∧
      (([sample_entry 1 "1" 7, sample_entry 2 "2" 8].map message_t.addr).Nodup →
        1 ∉ st2.messages.map message_t.addr) :=
  ⟨rfl, C5_handle_response_destroys_found (some (success_response "1")) 0 10
    { messages := [sample_entry 1 "1" 7, sample_entry 2 "2" 8], trace := [] }
    { messages := [sample_entry 2 "2" 8], trace := [] } (sample_entry 1 "1" 7) (some "1") rfl⟩

/-- C6: `rpc_destroy_messages` on a registry of K entries (K within the range of the
`int32_t` counter) empties the registry (size 0), calls no success or failure handler,
destroys the entries in insertion order, so that the release function of every entry that
has one is called exactly once with that entry's request context, in insertion order, and
reports the count K. -/
theorem C6_rpc_destroy_messages_drains (st : rpc_state)
    (hK : st.messages.length < 2 ^ 31) :
    (rpc_destroy_messages st).messages = [] ∧
    rpc_message_list_size (rpc_destroy_messages st) = 0 ∧
    rpc_message_list_is_empty (rpc_destroy_messages st) = true ∧
    ∃ new,
      (rpc_destroy_messages st).trace =
        st.trace ++ new ++ [event.log (log_t.destroyed st.messages.length)] ∧
      new = st.messages.flatMap dealloc_events ∧
      handler_calls new = [] ∧
      release_calls new = st.messages.filterMap release_event := by
  have hloop := rpc_destroy_messages_loop_eq st.messages 0 st (le_refl 0)
    (by have : ((st.messages.length : Nat) : Int) < 2 ^ 31 := by exact_mod_cast hK
        omega)
  have hmsg : (rpc_destroy_messages st).messages = [] := by
    unfold rpc_destroy_messages
    rw [hloop]
    cases hm : st.messages <;> simp [emit]
  refine ⟨hmsg, ?_, ?_, st.messages.flatMap dealloc_events, ?_, rfl,
    handler_calls_dealloc_events _, release_calls_dealloc_events _⟩
  · simp [rpc_message_list_size, hmsg]
  · simp [rpc_message_list_is_empty, hmsg]
  · unfold rpc_destroy_messages
    rw [hloop]
    simp [emit]

/-- C6, at two pending entries "a" and "b". -/
theorem C6_rpc_destroy_messages_drains_witness :
    [sample_entry 1 "a" 7, sample_entry 2 "b" 8].length < 2 ^ 31 ∧
    (rpc_destroy_messages
      { messages := [sample_entry 1 "a" 7, sample_entry 2 "b" 8], trace := [] }).trace =
      [event.json_decref 1 (some (request_with_id "a")), event.free_func 1 300 7,
        event.free 1,
        event.json_decref 2 (some (request_with_id "b")), event.free_func 2 300 8,
        event.free 2,
        event.log (log_t.destroyed 2)] ∧
    ((rpc_destroy_messages
      { messages := [sample_entry 1 "a" 7, sample_entry 2 "b" 8], trace := [] }).messages = [] ∧
    rpc_message_list_size (rpc_destroy_messages
      { messages := [sample_entry 1 "a" 7, sample_entry 2 "b" 8], trace := [] }) = 0 ∧
    rpc_message_list_is_empty (rpc_destroy_messages
      { messages := [sample_entry 1 "a" 7, sample_entry 2 "b" 8], trace := [] }) = true ∧
    ∃ new,
      (rpc_destroy_messages
        { messages := [sample_entry 1 "a" 7, sample_entry 2 "b" 8], trace := [] }).trace =
        [] ++ new ++ [event.log (log_t.destroyed
          [sample_entry 1 "a" 7, sample_entry 2 "b" 8].length)] ∧
      new = [sample_entry 1 "a" 7, sample_entry 2 "b" 8].flatMap dealloc_events ∧
      handler_calls new = [] ∧
      release_calls new =
        [sample_entry 1 "a" 7, sample_entry 2 "b" 8].filterMap release_event) :=
  ⟨by decide, rfl, C6_rpc_destroy_messages_drains
    { messages := [sample_entry 1 "a" 7, sample_entry 2 "b" 8], trace := [] } (by decide)⟩

/-- C7, counterexample: the key "a" matches the only pending entry, which has a release
function.  `remove_message_for_id("a")` unlinks the entry and makes no external call, so it
is not the case that the release function has been called exactly once afterwards. -/
theorem C7_remove_message_for_id_releases_nothing :
    _remove_message_for_id (some "a") { messages := [sample_entry 1 "a" 7], trace := [] } =
      some (some (sample_entry 1 "a" 7), empty_state) ∧
    (sample_entry 1 "a" 7).free_func = some 300 ∧
    remove_message_for_id (some "a") { messages := [sample_entry 1 "a" 7], trace := [] } =
      some { messages := [], trace := [] } ∧
    ¬ ∃ st1, remove_message_for_id (some "a")
          { messages := [sample_entry 1 "a" 7], trace := [] } = some st1 ∧
        release_count (sample_entry 1 "a" 7).addr st1.trace = 1 := by
  refine ⟨rfl, rfl, rfl, ?_⟩
  rintro ⟨st1, h, hc⟩
  have h0 : remove_message_for_id (some "a")
      { messages := [sample_entry 1 "a" 7], trace := [] } =
      some { messages := [], trace := [] } := rfl
  rw [h0] at h
  simp only [Option.some.injEq] at h
  subst h
  simp [release_count] at hc

/-- C7, amended: when the key `k` is the identifier of the pending entry `e` and no entry
inserted before `e` has an identifier that starts with `k`, `remove_message_for_id(k)`
returns with `e` unlinked from the registry (the list `pre ++ e :: post` becomes
`pre ++ post`, so with distinct addresses `e` is no longer in it) and makes no external call
at all: no success or failure handler is called, and `e` is not destroyed (no payload
release, no release-function call, no `free`); the entry is left to the caller. -/
theorem C7_remove_message_for_id_only_unlinks (k : String) (st : rpc_state)
    (pre post : List message_t) (e : message_t)
    (hlist : st.messages = pre ++ e :: post)
    (hid : entry_id e = some k)
    (hpre : ∀ m ∈ pre, id_without_prefix k m) :
    remove_message_for_id (some k) st =
      some { messages := pre ++ post, trace := st.trace } ∧
    handler_calls ({ messages := pre ++ post, trace := st.trace } : rpc_state).trace =
      handler_calls st.trace ∧
    release_count e.addr ({ messages := pre ++ post, trace := st.trace } : rpc_state).trace =
      release_count e.addr st.trace ∧
    free_count e.addr ({ messages := pre ++ post, trace := st.trace } : rpc_state).trace =
      free_count e.addr st.trace ∧
    ((st.messages.map message_t.addr).Nodup →
      e.addr ∉ (pre ++ post).map message_t.addr) := by
  have hstart : id_starts_with k e := ⟨k, hid, List.prefix_refl _⟩
  have hscan := remove_scan_first_prefix k pre post e hpre hstart
  refine ⟨?_, rfl, rfl, rfl, ?_⟩
  · simp [remove_message_for_id, _remove_message_for_id, hlist, hscan]
  · intro hnd
    rw [hlist] at hnd
    exact addr_not_mem_of_nodup pre post e hnd

/-- C7 amended, at the key "a" with the entries "b", "a" and "ab" pending. -/
theorem C7_remove_message_for_id_only_unlinks_witness :
    remove_message_for_id (some "a")
        { messages := [sample_entry 1 "b" 7, sample_entry 2 "a" 8, sample_entry 3 "ab" 9],
          trace := [] } =
      some { messages := [sample_entry 1 "b" 7] ++ [sample_entry 3 "ab" 9], trace := [] } :=
  (C7_remove_message_for_id_only_unlinks "a"
    { messages := [sample_entry 1 "b" 7, sample_entry 2 "a" 8, sample_entry 3 "ab" 9],
      trace := [] }
    [sample_entry 1 "b" 7] [sample_entry 3 "ab" 9] (sample_entry 2 "a" 8) rfl rfl
    (by
      intro m hm
      simp only [List.mem_singleton] at hm
      subst hm
      exact ⟨"b", rfl, by decide⟩)).1

/-- C8, counterexample: the entry "a" is inserted and then cancelled with
`remove_message_for_id`.  It has a release function and has been removed from the registry,
but its release function has not been called: the count is 0, not 1. -/
theorem C8_cancelled_entry_never_released :
    rpc_run [rpc_op.add (sample_entry 1 "a" 7), rpc_op.remove (some "a")] empty_state =
      some { messages := [], trace := [] } ∧
    (sample_entry 1 "a" 7).free_func = some 300 ∧
    ¬ ∀ st, rpc_run [rpc_op.add (sample_entry 1 "a" 7), rpc_op.remove (some "a")]
          empty_state = some st →
        ∀ e ∈ added_entries [rpc_op.add (sample_entry 1 "a" 7), rpc_op.remove (some "a")],
          e ∉ st.messages → release_count e.addr st.trace = 1 := by
  refine ⟨rfl, rfl, ?_⟩
  intro h
  have h1 := h { messages := [], trace := [] } rfl (sample_entry 1 "a" 7)
    (List.mem_cons_self _ _) (by simp)
  simp [release_count] at h1

/-- C8, amended: along every sequence of insertions (no entry inserted twice), responses,
cancellations and drains, started in the empty state, for every inserted entry: its release
function has been called at most once; while it is in the registry it has been neither
released nor freed; once it has left the registry through `handle_response` or
`rpc_destroy_messages` it has been freed exactly once and its release function, if it has
one, has been called exactly once; an entry unlinked by `remove_message_for_id` is out of
the registry and has been neither released nor freed. -/
theorem C8_release_exactly_once (ops : List rpc_op) (st : rpc_state)
    (hnodup : ((added_entries ops).map message_t.addr).Nodup)
    (hrun : rpc_run ops empty_state = some st) :
    ∀ e ∈ added_entries ops,
      release_count e.addr st.trace ≤ 1 ∧
      (e ∈ st.messages →
        release_count e.addr st.trace = 0 ∧ free_count e.addr st.trace = 0) ∧
      (e ∉ st.messages → e.addr ∉ rpc_cancelled ops empty_state →
        free_count e.addr st.trace = 1 ∧
          release_count e.addr st.trace = (if e.free_func.isSome then 1 else 0)) ∧
      (e.addr ∈ rpc_cancelled ops empty_state →
        e ∉ st.messages ∧
          release_count e.addr st.trace = 0 ∧ free_count e.addr st.trace = 0) := by
  have hinv := lifecycle_inv_run ops [] [] empty_state st lifecycle_inv_empty
    (by simpa using hnodup) hrun
  simp only [List.nil_append] at hinv
  intro e he
  have hnotmem : e ∉ st.messages → e.addr ∉ st.messages.map message_t.addr := by
    intro h1 h2
    obtain ⟨m, hm, hma⟩ := List.mem_map.mp h2
    have := eq_of_addr_eq _ m e hinv.added_nodup (hinv.pending_added m hm) he hma
    exact h1 (this ▸ hm)
  have hcanc : e.addr ∈ rpc_cancelled ops empty_state →
      e ∉ st.messages ∧
        release_count e.addr st.trace = 0 ∧ free_count e.addr st.trace = 0 := by
    intro h
    obtain ⟨-, h2, h3, h4⟩ := hinv.cancelled_fresh _ h
    exact ⟨fun hm => h2 (List.mem_map_of_mem _ hm), h3, h4⟩
  refine ⟨?_, hinv.pending_fresh e, fun h1 h2 => hinv.destroyed_once e he (hnotmem h1) h2,
    hcanc⟩
  by_cases hm : e ∈ st.messages
  · rw [(hinv.pending_fresh e hm).1]; omega
  · by_cases hc : e.addr ∈ rpc_cancelled ops empty_state
    · rw [(hcanc hc).2.1]; omega
    · rw [(hinv.destroyed_once e he (hnotmem hm) hc).2]
      split <;> omega

/-- C8 amended, at a sequence with every kind of call. -/
theorem C8_release_exactly_once_witness :
    ((added_entries sample_ops).map message_t.addr).Nodup ∧
    rpc_cancelled sample_ops empty_state = [2] ∧
    ∃ st, rpc_run sample_ops empty_state = some st ∧
      st.messages = [] ∧
      release_count 1 st.trace = 1 ∧ release_count 2 st.trace = 0 ∧
      release_count 3 st.trace = 1 ∧
      ∀ e ∈ added_entries sample_ops,
        release_count e.addr st.trace ≤ 1 ∧
        (e ∈ st.messages →
          release_count e.addr st.trace = 0 ∧ free_count e.addr st.trace = 0) ∧
        (e ∉ st.messages → e.addr ∉ rpc_cancelled sample_ops empty_state →
          free_count e.addr st.trace = 1 ∧
            release_count e.addr st.trace = (if e.free_func.isSome then 1 else 0)) ∧
        (e.addr ∈ rpc_cancelled sample_ops empty_state →
          e ∉ st.messages ∧
            release_count e.addr st.trace = 0 ∧ free_count e.addr st.trace = 0) :=
  ⟨by decide, rfl, _, rfl, rfl, rfl, rfl, rfl,
    C8_release_exactly_once sample_ops _ (by decide) rfl⟩

/-- C9, at the failing input: the payload is the sample request, both output locations are
given and serialisation succeeds, so none of the four failure conditions holds, but `calloc`
returns `NULL`.  The call does not return 0 with an entry, nor an error: `alloc_message` logs
the allocation error and then writes through the null pointer, and the call has no result. -/
theorem C9_no_result_when_calloc_fails :
    (some sample_request ≠ none ∧ true ≠ false ∧
      (sample_env_no_memory "1" (sample_bytes "1")).json_dumps
        (json_object_set_new sample_request "id"
          (json_string (sample_env_no_memory "1" (sample_bytes "1")).generate_msg_id)) ≠
        none) ∧
    (sample_env_no_memory "1" (sample_bytes "1")).calloc = none ∧
    alloc_message none (some (request_with_id "1")) 100 200 (some 300) 7 empty_state = none ∧
    rpc_construct_message (sample_env_no_memory "1" (sample_bytes "1")) (some sample_request)
      100 200 (some 300) 7 true true empty_state = none ∧
    ¬ ∃ out st1,
      rpc_construct_message (sample_env_no_memory "1" (sample_bytes "1"))
        (some sample_request) 100 200 (some 300) 7 true true empty_state = some (out, st1) ∧
      out.rc = 0 ∧ out.returned_msg_entry ≠ none := by
  refine ⟨⟨by simp, by simp, by simp [sample_env_no_memory]⟩, rfl, rfl, rfl, ?_⟩
  rintro ⟨out, st1, h, -, -⟩
  have h0 : rpc_construct_message (sample_env_no_memory "1" (sample_bytes "1"))
      (some sample_request) 100 200 (some 300) 7 true true empty_state = none := rfl
  rw [h0] at h
  simp at h

/-- C10, counterexamples.  (1) The payload is the JSON array `[]`, not null; construction
succeeds with message_id "1", but the built entry's payload carries no "id" member.  (2) The
entry "12" is pending; a request is built with identifier "1" and inserted; the response
with "id" = "1" delivered right after is correlated to the entry "12" (address 1), not to
the entry just inserted (address 2). -/
theorem C10_payload_without_id_and_wrong_entry :
    (∃ out st1 entry,
      rpc_construct_message (sample_env "1" "[]" 1) (some (json_t.array [])) 100 200
        (some 300) 7 true true empty_state = some (out, st1) ∧
      out.rc = 0 ∧ out.message_id = some "1" ∧ out.returned_msg_entry = some entry ∧
      json_object_get entry.json_message "id" = none) ∧
    (∃ out st1,
      rpc_construct_message (sample_env "1" (sample_bytes "1") 2) (some sample_request) 100 200
        (some 300) 9 true true state_with_12 = some (out, st1) ∧
      out.rc = 0 ∧ out.message_id = some "1" ∧
      out.returned_msg_entry = some (sample_entry 2 "1" 9) ∧
      remove_message_for_response (some (success_response "1"))
        (rpc_add_message_entry_to_list out.returned_msg_entry st1) =
        some (some (sample_entry 1 "12" 7), some "1",
          { messages := [sample_entry 2 "1" 9], trace := [] })) :=
  ⟨⟨_, _, _, rfl, rfl, rfl, rfl, rfl⟩, ⟨_, _, rfl, rfl, rfl, rfl, rfl⟩⟩

/-- C10, amended: for every payload that is a JSON object and every identifier `s` returned
by the generator, a successful `rpc_construct_message` returns message_id `s`; the built
entry's payload carries `s` under "id" (whatever "id" it had before); the "id" re-extracted
from the serialised request is `s`, for every parser that reads back the "id" of the
documents the serialiser writes; and when no entry already pending has an identifier starting
with `s`, a response with "id" = `s` delivered right after inserting the entry is correlated
to that entry (the lookup returns it and restores the registry). -/
theorem C10_identifier_round_trip (env : rpc_env) (members : List (String × json_t))
    (s : String) (success_handler failure_handler : Nat) (free_func : Option Nat)
    (request_context : Nat) (st st1 : rpc_state) (out : construct_out)
    (json_loads : String → Option json_t) (response : Option json_t)
    (hgen : env.generate_msg_id = some s)
    (hrun : rpc_construct_message env (some (json_t.object members)) success_handler
      failure_handler free_func request_context true true st = some (out, st1))
    (hok : out.rc = 0)
    (hloads : ∀ doc bytes, env.json_dumps doc = some bytes →
      ∃ doc1, json_loads bytes = some doc1 ∧
        json_object_get (some doc1) "id" = json_object_get (some doc) "id")
    (hfresh : ∀ m ∈ st.messages, ∃ mid, entry_id m = some mid ∧ ¬ cstr s.data <+: cstr mid.data)
    (hresp : json_object_get response "id" = some (json_t.string s)) :
    out.message_id = some s ∧
    (∃ entry, out.returned_msg_entry = some entry ∧
      json_object_get entry.json_message "id" = some (json_t.string s) ∧
      entry_id entry = some s ∧
      remove_message_for_response response (rpc_add_message_entry_to_list (some entry) st1) =
        some (some entry, some s, st1)) ∧
    (∃ bytes doc, out.data = some bytes ∧ json_loads bytes = some doc ∧
      json_string_value (json_object_get (some doc) "id") = some s) := by
  have hid : json_object_get
      (some (json_object_set_new (json_t.object members) "id" (json_string (some s)))) "id" =
      some (json_t.string s) := by
    simpa [json_string] using json_object_get_set_new members "id" (json_t.string s)
  simp only [rpc_construct_message, hgen, Bool.true_eq_false, or_self, if_false] at hrun
  cases hd : env.json_dumps
      (json_object_set_new (json_t.object members) "id" (json_string (some s))) with
  | none =>
    simp only [hd, Option.some.injEq, Prod.mk.injEq] at hrun
    obtain ⟨h1, -⟩ := hrun
    subst h1
    simp at hok
  | some bytes =>
    simp only [hd, alloc_message] at hrun
    cases hc : env.calloc with
    | none => simp [hc] at hrun
    | some addr =>
      simp only [hc, Option.some.injEq, Prod.mk.injEq] at hrun
      obtain ⟨h1, h2⟩ := hrun
      subst h1
      have hmsgs : st1.messages = st.messages := by
        rw [← h2]; cases free_func <;> simp [emit]
      refine ⟨rfl, ⟨_, rfl, hid, ?_, ?_⟩, ?_⟩
      · simp [entry_id, hid, json_string_value]
      · have hscan := remove_scan_append s st1.messages
          { addr := addr,
            json_message := some (json_object_set_new (json_t.object members) "id"
              (json_string (some s))),
            id := none, request_context := request_context,
            success_handler := success_handler, failure_handler := failure_handler,
            free_func := free_func } s (by rw [hmsgs]; exact hfresh)
          (by simp [entry_id, hid, json_string_value]) (List.prefix_refl _)
        simp [remove_message_for_response, hresp, json_string_value, _remove_message_for_id,
          rpc_add_message_entry_to_list, hscan]
      · obtain ⟨doc, hdoc, hkey⟩ := hloads _ bytes hd
        refine ⟨bytes, doc, rfl, hdoc, ?_⟩
        rw [hkey, hid]
        rfl

/-- C10 amended, at the sample request with identifier "1" while "2" is pending, with the
sample serialiser and parser. -/
theorem C10_identifier_round_trip_witness :
    rpc_construct_message (sample_env_dumps "1" 1) (some sample_request) 100 200 (some 300) 7
        true true { messages := [sample_entry 5 "2" 8], trace := [] } =
      some (sample_out, { messages := [sample_entry 5 "2" 8], trace := [] }) ∧
    sample_out.message_id = some "1" ∧
    (∃ entry, sample_out.returned_msg_entry = some entry ∧
      json_object_get entry.json_message "id" = some (json_t.string "1") ∧
      entry_id entry = some "1" ∧
      remove_message_for_response (some (success_response "1"))
          (rpc_add_message_entry_to_list (some entry)
            { messages := [sample_entry 5 "2" 8], trace := [] }) =
        some (some entry, some "1", { messages := [sample_entry 5 "2" 8], trace := [] })) ∧
    (∃ bytes doc, sample_out.data = some bytes ∧ sample_loads bytes = some doc ∧
      json_string_value (json_object_get (some doc) "id") = some "1") :=
  ⟨rfl, C10_identifier_round_trip (sample_env_dumps "1" 1)
    [("jsonrpc", json_t.string "2.0"), ("method", json_t.string "test"),
      ("params", json_t.object [])]
    "1" 100 200 (some 300) 7 { messages := [sample_entry 5 "2" 8], trace := [] }
    { messages := [sample_entry 5 "2" 8], trace := [] } sample_out sample_loads
    (some (success_response "1")) rfl rfl rfl
    sample_loads_dumps
    (by
      intro m hm
      simp only [List.mem_singleton] at hm
      subst hm
      exact ⟨"2", rfl, by decide⟩)
    rfl⟩

/-- C11: `rpc_construct_message` never changes the registry.  It returns unless the entry
allocation fails, and whenever it returns, successfully or not, the list of pending entries
is the list before the call (same entries, same order, same size); every lookup by
identifier gives on the state after the call what it gives on the state before, and, `calloc`
having returned an address that no pending entry has, no lookup finds the built entry.  After
`rpc_add_message_entry_to_list` the entry is the last of the list. -/
theorem C11_rpc_construct_message_keeps_registry (env : rpc_env) (message : Option json_t)
    (success_handler failure_handler : Nat) (free_func : Option Nat) (request_context : Nat)
    (data message_id : Bool) (st : rpc_state) :
    (env.calloc ≠ none →
      ∃ out st1, rpc_construct_message env message success_handler failure_handler free_func
        request_context data message_id st = some (out, st1)) ∧
    (∀ out st1, rpc_construct_message env message success_handler failure_handler free_func
        request_context data message_id st = some (out, st1) →
      st1.messages = st.messages ∧
      rpc_message_list_size st1 = rpc_message_list_size st ∧
      rpc_message_list_is_empty st1 = rpc_message_list_is_empty st ∧
      (∀ k, remove_scan k st1.messages = remove_scan k st.messages) ∧
      (∀ entry, out.returned_msg_entry = some entry →
        entry.addr ∉ st.messages.map message_t.addr →
        (∀ k found st2, _remove_message_for_id k st1 = some (some found, st2) →
          found.addr ≠ entry.addr) ∧
        (rpc_add_message_entry_to_list (some entry) st1).messages =
          st.messages ++ [entry])) := by
  have hkeep : ∀ out st1, rpc_construct_message env message success_handler failure_handler
      free_func request_context data message_id st = some (out, st1) →
      st1.messages = st.messages := by
    intro out st1 h
    unfold rpc_construct_message at h
    split at h
    · simp only [Option.some.injEq, Prod.mk.injEq] at h
      rw [← h.2]; rfl
    · split at h
      · simp only [Option.some.injEq, Prod.mk.injEq] at h
        rw [← h.2]; rfl
      · simp only at h
        split at h
        · unfold alloc_message at h
          cases hc : env.calloc with
          | none => simp [hc] at h
          | some addr =>
            simp only [hc, Option.some.injEq, Prod.mk.injEq] at h
            rw [← h.2]
            cases free_func <;> simp [emit]
        · simp only [Option.some.injEq, Prod.mk.injEq] at h
          rw [← h.2]; rfl
  constructor
  · intro hc
    obtain ⟨addr, hc⟩ := Option.ne_none_iff_exists'.mp hc
    unfold rpc_construct_message
    split
    · exact ⟨_, _, rfl⟩
    · split
      · exact ⟨_, _, rfl⟩
      · simp only
        split
        · simp only [alloc_message, hc]
          exact ⟨_, _, rfl⟩
        · exact ⟨_, _, rfl⟩
  · intro out st1 h
    have hm := hkeep out st1 h
    refine ⟨hm, by simp [rpc_message_list_size, hm], by simp [rpc_message_list_is_empty, hm],
      fun k => by rw [hm], ?_⟩
    intro entry _ hfresh
    refine ⟨?_, by simp [rpc_add_message_entry_to_list, hm]⟩
    intro k found st2 hrm heq
    unfold _remove_message_for_id at hrm
    split at hrm
    · simp at hrm
    · rename_i found2 rest hscan
      simp only [Option.some.injEq, Prod.mk.injEq] at hrm
      obtain ⟨h1, -⟩ := hrm
      subst h1
      obtain ⟨pre, post, hpre, -⟩ := remove_scan_found k st1.messages rest _ hscan
      apply hfresh
      rw [← heq, ← hm, hpre]
      simp

/-- C11, at the sample request built while the entry "2" is pending. -/
theorem C11_rpc_construct_message_keeps_registry_witness :
    ∃ out st1,
      rpc_construct_message (sample_env "1" (sample_bytes "1") 1) (some sample_request)
        100 200 (some 300) 7 true true
        { messages := [sample_entry 5 "2" 8], trace := [] } = some (out, st1) ∧
      st1.messages = [sample_entry 5 "2" 8] ∧
      remove_scan (some "1") st1.messages = some (none, [sample_entry 5 "2" 8]) :=
  ⟨_, _, rfl,
    ((C11_rpc_construct_message_keeps_registry (sample_env "1" (sample_bytes "1") 1)
      (some sample_request) 100 200 (some 300) 7 true true
      { messages := [sample_entry 5 "2" 8], trace := [] }).2 _ _ rfl).1, rfl⟩

/-- C12: `rpc_add_message_entry_to_list` on a non-null entry appends it at the end of the
registry: the entries before keep their place, `rpc_message_list_size()` grows by exactly 1
and `rpc_message_list_is_empty()` is false; nothing is logged.  On a null entry the state is
unchanged.  In particular the request "test" built with identifier "1" and inserted into the
empty registry gives size 1. -/
theorem C12_rpc_add_message_entry_to_list_appends (entry : message_t) (st : rpc_state) :
    (rpc_add_message_entry_to_list (some entry) st).messages = st.messages ++ [entry] ∧
    (rpc_add_message_entry_to_list (some entry) st).trace = st.trace ∧
    rpc_message_list_size (rpc_add_message_entry_to_list (some entry) st) =
      rpc_message_list_size st + 1 ∧
    rpc_message_list_is_empty (rpc_add_message_entry_to_list (some entry) st) = false ∧
    rpc_add_message_entry_to_list none st = st ∧
    (∃ out st1,
      rpc_construct_message (sample_env "1" (sample_bytes "1") 1) (some sample_request)
        100 200 (some 300) 7 true true empty_state = some (out, st1) ∧
      out.rc = 0 ∧
      rpc_message_list_size (rpc_add_message_entry_to_list out.returned_msg_entry st1) = 1) := by
  refine ⟨rfl, rfl, ?_, ?_, rfl, ⟨_, _, rfl, rfl, rfl⟩⟩
  · simp [rpc_message_list_size, rpc_add_message_entry_to_list]
  · simp [rpc_message_list_is_empty, rpc_add_message_entry_to_list]

/-- C13: for every registry state and every response without an "id" member,
`handle_response` returns 0; the registry is unchanged and the only calls made are the two
trace lines (no identifier in the response, no matching request): no success handler, no
failure handler and no release function is called. -/
theorem C13_handle_response_without_id (response : Option json_t)
    (begin_time end_time : Nat) (st : rpc_state)
    (hid : json_object_get response "id" = none) :
    handle_response response begin_time end_time st =
      some (0, { messages := st.messages,
                 trace := st.trace ++ [event.log log_t.no_id_in_response,
                   event.log (log_t.no_match none)] }) ∧
    handler_calls [event.log log_t.no_id_in_response, event.log (log_t.no_match none)] = [] ∧
    release_calls [event.log log_t.no_id_in_response, event.log (log_t.no_match none)] = [] := by
  refine ⟨?_, rfl, rfl⟩
  simp [handle_response, remove_message_for_response, hid, emit]

/-- C13, at a response without "id" while the entry "1" is pending. -/
theorem C13_handle_response_without_id_witness :
    json_object_get (some (json_t.object [("jsonrpc", json_t.string "2.0"),
      ("result", json_t.object [])])) "id" = none ∧
    handle_response (some (json_t.object [("jsonrpc", json_t.string "2.0"),
        ("result", json_t.object [])])) 0 10
        { messages := [sample_entry 1 "1" 7], trace := [] } =
      some (0, { messages := [sample_entry 1 "1" 7],
                 trace := [] ++ [event.log log_t.no_id_in_response,
                   event.log (log_t.no_match none)] }) :=
  ⟨rfl, (C13_handle_response_without_id (some (json_t.object [("jsonrpc", json_t.string "2.0"),
      ("result", json_t.object [])])) 0 10
      { messages := [sample_entry 1 "1" 7], trace := [] } rfl).1⟩

/-- C14: the implemented matching is a prefix comparison bounded by the key's length.  For
every key `k` and registry state: `_remove_message_for_id(k)` unlinks and returns the first
entry in insertion order whose identifier has `k` as a prefix, and an entry it returns is
that first entry; when every pending entry has a text identifier the lookup has a result,
and it returns none iff no pending identifier starts with `k`; when it returns none the
state is unchanged.  In particular the key "1" removes the single entry "12", and the empty
key removes the first entry of any non-empty registry. -/
theorem C14_lookup_is_prefix_search (k : String) (st : rpc_state) :
    (∀ pre e post, st.messages = pre ++ e :: post →
      (∀ m ∈ pre, id_without_prefix k m) → id_starts_with k e →
      _remove_message_for_id (some k) st =
        some (some e, { messages := pre ++ post, trace := st.trace })) ∧
    (∀ e st1, _remove_message_for_id (some k) st = some (some e, st1) →
      ∃ pre post, st.messages = pre ++ e :: post ∧
        st1 = { messages := pre ++ post, trace := st.trace } ∧
        (∀ m ∈ pre, id_without_prefix k m) ∧ id_starts_with k e) ∧
    ((∀ m ∈ st.messages, has_text_id m) →
      (∃ r, _remove_message_for_id (some k) st = some r) ∧
      (_remove_message_for_id (some k) st = some (none, st) ↔
        ∀ m ∈ st.messages, ¬ id_starts_with k m)) ∧
    (∀ st1, _remove_message_for_id (some k) st = some (none, st1) → st1 = st) ∧
    _remove_message_for_id (some "1") state_with_12 =
      some (some (sample_entry 1 "12" 7), empty_state) ∧
    (∀ e rest tr, has_text_id e →
      _remove_message_for_id (some "") { messages := e :: rest, trace := tr } =
        some (some e, { messages := rest, trace := tr })) := by
  have hres : ∀ found st1, _remove_message_for_id (some k) st = some (found, st1) →
      ∃ rest, remove_scan (some k) st.messages = some (found, rest) ∧
        st1 = { messages := rest, trace := st.trace } := by
    intro found st1 h
    unfold _remove_message_for_id at h
    split at h
    · simp at h
    · rename_i found2 rest hscan
      simp only [Option.some.injEq, Prod.mk.injEq] at h
      obtain ⟨h1, h2⟩ := h
      subst h1 h2
      exact ⟨rest, hscan, rfl⟩
  refine ⟨?_, ?_, ?_, ?_, rfl, ?_⟩
  · intro pre e post hm hpre he
    simp [_remove_message_for_id, hm, remove_scan_first_prefix k pre post e hpre he]
  · intro e st1 h
    obtain ⟨rest, hscan, hst1⟩ := hres _ _ h
    obtain ⟨pre, post, h1, h2, h3, h4⟩ :=
      (remove_scan_result k st.messages rest (some e) hscan).2 e rfl
    exact ⟨pre, post, h1, by rw [hst1, h2], h3, h4⟩
  · intro hwf
    obtain ⟨r, hr⟩ := remove_scan_total k st.messages hwf
    refine ⟨⟨_, by simp only [_remove_message_for_id, hr]; rfl⟩, ?_, ?_⟩
    · intro h m hm
      obtain ⟨rest, hscan, -⟩ := hres _ _ h
      exact id_without_prefix_not_starts k m
        (((remove_scan_result k st.messages rest none hscan).1 rfl).2 m hm)
    · intro h
      have hall : ∀ m ∈ st.messages, id_without_prefix k m := by
        intro m hm
        rcases id_prefix_cases k m (hwf m hm) with h1 | h1
        · exact absurd h1 (h m hm)
        · exact h1
      simp [_remove_message_for_id, remove_scan_no_prefix k st.messages hall]
  · intro st1 h
    obtain ⟨rest, hscan, hst1⟩ := hres _ _ h
    rw [hst1, ((remove_scan_result k st.messages rest none hscan).1 rfl).1]
  · intro e rest tr he
    obtain ⟨sid, hsid⟩ := he
    have hp : id_starts_with "" e := ⟨sid, hsid, by simp [cstr]⟩
    have hscan : remove_scan (some "") (e :: rest) = some (some e, rest) := by
      simpa using remove_scan_first_prefix "" [] rest e (by simp) hp
    simp [_remove_message_for_id, hscan]

/-- C14, at the key "2" with the entries "1", "21" and "2" pending: the entry "21" is the
first whose identifier starts with "2". -/
theorem C14_lookup_is_prefix_search_witness :
    _remove_message_for_id (some "2")
        { messages := [sample_entry 1 "1" 7, sample_entry 2 "21" 8, sample_entry 3 "2" 9],
          trace := [] } =
      some (some (sample_entry 2 "21" 8),
        { messages := [sample_entry 1 "1" 7] ++ [sample_entry 3 "2" 9], trace := [] }) :=
  (C14_lookup_is_prefix_search "2"
    { messages := [sample_entry 1 "1" 7, sample_entry 2 "21" 8, sample_entry 3 "2" 9],
      trace := [] }).1 [sample_entry 1 "1" 7] (sample_entry 2 "21" 8) [sample_entry 3 "2" 9]
    rfl
    (by
      intro m hm
      simp only [List.mem_singleton] at hm
      subst hm
      exact ⟨"1", rfl, by decide⟩)
    ⟨"21", rfl, by decide⟩

/-- C15, at the failing input: the entries "12" and "13" have distinct identifiers; for the
response identifier "1" the registry with "12" inserted first loses the entry "12" and keeps
"13", the registry with "13" inserted first loses "13" and keeps "12". -/
theorem C15_order_decides_which_entry_is_removed :
    entry_id (sample_entry 1 "12" 7) = some "12" ∧
    entry_id (sample_entry 2 "13" 8) = some "13" ∧
    ("12" : String) ≠ "13" ∧
    List.Perm [sample_entry 1 "12" 7, sample_entry 2 "13" 8]
      [sample_entry 2 "13" 8, sample_entry 1 "12" 7] ∧
    _remove_message_for_id (some "1")
        { messages := [sample_entry 1 "12" 7, sample_entry 2 "13" 8], trace := [] } =
      some (some (sample_entry 1 "12" 7),
        { messages := [sample_entry 2 "13" 8], trace := [] }) ∧
    _remove_message_for_id (some "1")
        { messages := [sample_entry 2 "13" 8, sample_entry 1 "12" 7], trace := [] } =
      some (some (sample_entry 2 "13" 8),
        { messages := [sample_entry 1 "12" 7], trace := [] }) ∧
    (sample_entry 1 "12" 7).addr ≠ (sample_entry 2 "13" 8).addr :=
  ⟨rfl, rfl, by decide, List.Perm.swap _ _ _, rfl, rfl, by decide⟩

/-- C16, at the failing input: the entry "1" is pending and the clock reads 0 before and 500
after the handler, so the elapsed time is exactly 500 and does not exceed the threshold.
The claim says no warning is written at exactly 500; the code writes its warning "took more
than 500 milliseconds" all the same, because it tests `callback_time >= 500`. -/
theorem C16_warning_at_exactly_500 :
    elapsed_u64 0 500 = 500 ∧
    handle_response (some (success_response "1")) 0 500
        { messages := [sample_entry 1 "1" 7], trace := [] } =
      some (0, { messages := [],
                 trace := [event.success_handler 1 100 (some (success_response "1")) 7,
                   event.log (log_t.callback_time 500),
                   event.log (log_t.callback_slow 500 500),
                   event.json_decref 1 (some (request_with_id "1")),
                   event.free_func 1 300 7,
                   event.free 1] }) ∧
    ¬ (slow_warnings [event.success_handler 1 100 (some (success_response "1")) 7,
          event.log (log_t.callback_time 500),
          event.log (log_t.callback_slow 500 500),
          event.json_decref 1 (some (request_with_id "1")),
          event.free_func 1 300 7,
          event.free 1] ≠ [] ↔ WARN_CALLBACK_RUNTIME < elapsed_u64 0 500) := by
  refine ⟨by decide, rfl, ?_⟩
  intro h
  have h1 : ¬ (WARN_CALLBACK_RUNTIME < elapsed_u64 0 500) := by decide
  apply h1
  apply h.mp
  simp [slow_warnings, is_slow_warning]

/-- C17: an entry built without a release function.  `alloc_message` (and with it a
successful `rpc_construct_message`) records the warning and leaves the entry without release
function.  `rpc_dealloc_message_entry` releases the payload, records the second warning in
place of the release call, and frees the entry.  On the `handle_response` path and on the
`rpc_destroy_messages` path the entry is unlinked and destroyed in this way, and no release
function is called for it: its request context is leaked. -/
theorem C17_entry_without_release_function :
    (∀ addr json_message success_handler failure_handler request_context st,
      alloc_message (some addr) json_message success_handler failure_handler none
          request_context st =
        some ({ addr := addr, json_message := json_message, id := none,
                request_context := request_context, success_handler := success_handler,
                failure_handler := failure_handler, free_func := none },
              { messages := st.messages,
                trace := st.trace ++ [event.log log_t.no_free_func_given] })) ∧
    (∀ env message success_handler failure_handler request_context data message_id st out st1,
      rpc_construct_message env message success_handler failure_handler none request_context
          data message_id st = some (out, st1) → out.rc = 0 →
        st1.trace = st.trace ++ [event.log log_t.no_free_func_given] ∧
        ∃ entry, out.returned_msg_entry = some entry ∧ entry.free_func = none) ∧
    (∀ e st, e.free_func = none →
      rpc_dealloc_message_entry (some e) st =
        { messages := st.messages,
          trace := st.trace ++ [event.json_decref e.addr e.json_message,
            event.log log_t.free_func_was_null, event.free e.addr] } ∧
      release_calls (dealloc_events e) = []) ∧
    (∀ response begin_time end_time st st1 e rid, e.free_func = none →
      remove_message_for_response response st = some (some e, rid, st1) →
      ∃ rc st2 head pre post,
        handle_response response begin_time end_time st = some (rc, st2) ∧
        st2.trace = st.trace ++ head ++ [event.json_decref e.addr e.json_message,
          event.log log_t.free_func_was_null, event.free e.addr] ∧
        release_calls (head ++ [event.json_decref e.addr e.json_message,
          event.log log_t.free_func_was_null, event.free e.addr]) = [] ∧
        st.messages = pre ++ e :: post ∧ st2.messages = pre ++ post) ∧
    (∀ st pre e post, e.free_func = none → st.messages = pre ++ e :: post →
      (rpc_destroy_messages st).messages = [] ∧
      ∃ head tail,
        (rpc_destroy_messages st).trace = st.trace ++ head ++
          [event.json_decref e.addr e.json_message, event.log log_t.free_func_was_null,
            event.free e.addr] ++ tail ∧
        ((st.messages.map message_t.addr).Nodup →
          release_count e.addr (head ++ [event.json_decref e.addr e.json_message,
            event.log log_t.free_func_was_null, event.free e.addr] ++ tail) = 0)) := by
  refine ⟨?_, ?_, ?_, ?_, ?_⟩
  · intro addr json_message success_handler failure_handler request_context st
    simp [alloc_message, emit]
  · intro env message success_handler failure_handler request_context data message_id st
      out st1 h hrc
    unfold rpc_construct_message at h
    split at h
    · simp only [Option.some.injEq, Prod.mk.injEq] at h
      rw [← h.1] at hrc; simp at hrc
    · split at h
      · simp only [Option.some.injEq, Prod.mk.injEq] at h
        rw [← h.1] at hrc; simp at hrc
      · simp only at h
        split at h
        · unfold alloc_message at h
          cases hc : env.calloc with
          | none => simp [hc] at h
          | some addr =>
            simp only [hc, Option.some.injEq, Prod.mk.injEq] at h
            obtain ⟨h1, h2⟩ := h
            subst h1
            rw [← h2]
            exact ⟨by simp [emit], _, rfl, rfl⟩
        · simp only [Option.some.injEq, Prod.mk.injEq] at h
          rw [← h.1] at hrc; simp at hrc
  · intro e st hf
    rw [dealloc_eq, dealloc_events_eq]
    simp [hf, release_calls, is_release_call]
  · intro response begin_time end_time st st1 e rid hf hfound
    obtain ⟨rest, hscan, hst1, -⟩ :=
      remove_message_for_response_found response st st1 e rid hfound
    obtain ⟨pre, post, hpre, hrest⟩ := remove_scan_found rid st.messages rest e hscan
    refine ⟨_, _,
      (if (json_object_get response "result").isSome then
          event.success_handler e.addr e.success_handler response e.request_context
        else event.failure_handler e.addr e.failure_handler response e.request_context) ::
        event.log (log_t.callback_time (elapsed_u64 begin_time end_time)) ::
        (if WARN_CALLBACK_RUNTIME ≤ elapsed_u64 begin_time end_time then
            [event.log (log_t.callback_slow WARN_CALLBACK_RUNTIME
              (elapsed_u64 begin_time end_time))]
          else []),
      pre, post,
      handle_response_found response begin_time end_time st st1 e rid hfound, ?_, ?_, hpre, ?_⟩
    · simp [dealloc_events_eq, hf]
    · cases hres : (json_object_get response "result").isSome <;>
        by_cases hw : WARN_CALLBACK_RUNTIME ≤ elapsed_u64 begin_time end_time <;>
        simp [hw, release_calls, is_release_call]
    · simp [hst1, hrest]
  · intro st pre e post hf hm
    have hst : rpc_destroy_messages st =
        emit (rpc_destroy_messages_loop st.messages 0 st).2
          (event.log (log_t.destroyed (rpc_destroy_messages_loop st.messages 0 st).1)) := by
      unfold rpc_destroy_messages
      rfl
    rw [rpc_destroy_messages_loop_state] at hst
    have hde : dealloc_events e = [event.json_decref e.addr e.json_message,
        event.log log_t.free_func_was_null, event.free e.addr] := by
      rw [dealloc_events_eq]; simp [hf]
    refine ⟨by rw [hst, hm]; simp [emit], pre.flatMap dealloc_events,
      post.flatMap dealloc_events ++
        [event.log (log_t.destroyed (rpc_destroy_messages_loop st.messages 0 st).1)], ?_, ?_⟩
    · rw [hst, hm]
      simp [emit, hde]
    · intro hnd
      have hcount := release_count_flatMap e.addr st.messages
      have he : e ∈ st.messages := by rw [hm]; simp
      rw [countP_addr_of_mem st.messages e _ hnd he] at hcount
      have hsplit : st.messages.flatMap dealloc_events =
          pre.flatMap dealloc_events ++ [event.json_decref e.addr e.json_message,
            event.log log_t.free_func_was_null, event.free e.addr] ++
            post.flatMap dealloc_events := by
        rw [hm]; simp [hde]
      rw [hsplit] at hcount
      simp only [release_count, List.countP_append, hf] at hcount ⊢
      simp only [List.countP_cons, List.countP_nil, releases] at hcount ⊢
      simp at hcount ⊢
      exact hcount

/-- C17, at the construction of the sample request without release function. -/
theorem C17_entry_without_release_function_witness :
    ∃ out st1 entry,
      rpc_construct_message (sample_env "1" (sample_bytes "1") 1) (some sample_request)
        100 200 none 7 true true empty_state = some (out, st1) ∧
      st1.trace = empty_state.trace ++ [event.log log_t.no_free_func_given] ∧
      out.returned_msg_entry = some entry ∧ entry.free_func = none ∧
      entry = sample_entry_no_free 1 "1" 7 ∧
      (rpc_destroy_messages (rpc_add_message_entry_to_list (some entry) st1)).trace =
        [event.log log_t.no_free_func_given,
          event.json_decref 1 (some (request_with_id "1")),
          event.log log_t.free_func_was_null, event.free 1,
          event.log (log_t.destroyed 1)] :=
  ⟨_, _, _, rfl,
    (C17_entry_without_release_function.2.1 (sample_env "1" (sample_bytes "1") 1)
      (some sample_request) 100 200 7 true true empty_state _ _ rfl rfl).1,
    rfl, rfl, rfl, rfl⟩

/-- C18: under the precondition that no pending identifier has the key `k` as a proper
prefix (every pending entry has a text identifier, and an identifier that starts with `k` is
equal to `k`), the implemented lookup `_remove_message_for_id(k)` coincides with full-value
matching: it returns and unlinks the first entry whose identifier equals `k`, and nothing
when no identifier equals `k`.  The precondition holds, for example, when all pending
identifiers have the length of `k`, and when `k` and the pending identifiers form a
prefix-free family. -/
theorem C18_prefix_lookup_refines_equality (k : String) (st : rpc_state)
    (hpf : ∀ m ∈ st.messages, ∃ sid, entry_id m = some sid ∧
      (cstr k.data <+: cstr sid.data → cstr sid.data = cstr k.data)) :
    _remove_message_for_id (some k) st =
      some ((spec_remove_first_equal k st.messages).1,
        { messages := (spec_remove_first_equal k st.messages).2, trace := st.trace }) ∧
    ((∀ m ∈ st.messages, (entry_id m).map (fun sid => cstr sid.data) ≠ some (cstr k.data)) →
      _remove_message_for_id (some k) st = some (none, st)) ∧
    (∀ ms : List message_t,
      (∀ m ∈ ms, ∃ sid, entry_id m = some sid ∧
        (cstr sid.data).length = (cstr k.data).length) →
      ∀ m ∈ ms, ∃ sid, entry_id m = some sid ∧
        (cstr k.data <+: cstr sid.data → cstr sid.data = cstr k.data)) ∧
    (∀ ms : List message_t,
      (∀ m ∈ ms, ∃ sid, entry_id m = some sid ∧
        (cstr sid.data ≠ cstr k.data → ¬ cstr k.data <+: cstr sid.data)) →
      ∀ m ∈ ms, ∃ sid, entry_id m = some sid ∧
        (cstr k.data <+: cstr sid.data → cstr sid.data = cstr k.data)) := by
  have hscan : ∀ ms : List message_t,
      (∀ m ∈ ms, ∃ sid, entry_id m = some sid ∧
        (cstr k.data <+: cstr sid.data → cstr sid.data = cstr k.data)) →
      remove_scan (some k) ms = some (spec_remove_first_equal k ms) := by
    intro ms
    induction ms with
    | nil => intro _; rfl
    | cons cur tl ih =>
      intro h
      obtain ⟨sid, hsid, hp⟩ := h cur (List.mem_cons_self _ _)
      have ih2 := ih (fun x hx => h x (List.mem_cons_of_mem _ hx))
      rw [remove_scan_cons k cur tl sid hsid, ih2]
      by_cases h0 : strncmp sid.data k.data (strlen k.data) = 0
      · have heq := hp ((strncmp_strlen_eq_zero_iff sid.data k.data).mp h0)
        simp [h0, spec_remove_first_equal, hsid, heq]
      · have hne : cstr sid.data ≠ cstr k.data := by
          intro heq
          apply h0
          rw [strncmp_strlen_eq_zero_iff, heq]
        simp [h0, spec_remove_first_equal, hsid, hne]
  refine ⟨?_, ?_, ?_, ?_⟩
  · simp [_remove_message_for_id, hscan st.messages hpf]
  · intro hnone
    have hspec : ∀ ms : List message_t,
        (∀ m ∈ ms, (entry_id m).map (fun sid => cstr sid.data) ≠ some (cstr k.data)) →
        spec_remove_first_equal k ms = (none, ms) := by
      intro ms
      induction ms with
      | nil => intro _; rfl
      | cons cur tl ih =>
        intro h
        have h1 := h cur (List.mem_cons_self _ _)
        have ih2 := ih (fun x hx => h x (List.mem_cons_of_mem _ hx))
        simp [spec_remove_first_equal, h1, ih2]
    simp [_remove_message_for_id, hscan st.messages hpf, hspec st.messages hnone]
  · intro ms h m hm
    obtain ⟨sid, hsid, hlen⟩ := h m hm
    exact ⟨sid, hsid, fun hp => (List.IsPrefix.eq_of_length hp hlen.symm).symm⟩
  · intro ms h m hm
    obtain ⟨sid, hsid, hfree⟩ := h m hm
    exact ⟨sid, hsid, fun hp => by_contra fun hne => hfree hne hp⟩

/-- C18, at the key "13" with the entries "12", "13" and "21" pending. -/
theorem C18_prefix_lookup_refines_equality_witness :
    _remove_message_for_id (some "13")
        { messages := [sample_entry 1 "12" 7, sample_entry 2 "13" 8, sample_entry 3 "21" 9],
          trace := [] } =
      some (some (sample_entry 2 "13" 8),
        { messages := [sample_entry 1 "12" 7, sample_entry 3 "21" 9], trace := [] }) ∧
    spec_remove_first_equal "13"
        [sample_entry 1 "12" 7, sample_entry 2 "13" 8, sample_entry 3 "21" 9] =
      (some (sample_entry 2 "13" 8), [sample_entry 1 "12" 7, sample_entry 3 "21" 9]) :=
  ⟨(C18_prefix_lookup_refines_equality "13"
      { messages := [sample_entry 1 "12" 7, sample_entry 2 "13" 8, sample_entry 3 "21" 9],
        trace := [] }
      (by
        intro m hm
        simp only [List.mem_cons, List.mem_singleton, List.not_mem_nil, or_false] at hm
        rcases hm with hm | hm | hm
        · subst hm; exact ⟨"12", rfl, by decide⟩
        · subst hm; exact ⟨"13", rfl, by decide⟩
        · subst hm; exact ⟨"21", rfl, by decide⟩)).1,
    rfl⟩

/-- C19: removal is local.  Whenever the lookup of `handle_response` or of
`remove_message_for_id` has a result, the function returns, and the list afterwards is the
list before with at most one entry taken out: if no entry was matched the list is the same
and the size is unchanged; if the entry `e` was matched the list is `pre ++ post` where it
was `pre ++ e :: post`, so every other entry is unchanged and keeps its relative order, and
the size is smaller by exactly 1.  The lookups have a result when every pending entry has a
text identifier and the key, or the "id" of the response if it has one, is a text. -/
theorem C19_removal_is_local (st : rpc_state) :
    (∀ response begin_time end_time found rid st1,
      remove_message_for_response response st = some (found, rid, st1) →
      ∃ rc st2, handle_response response begin_time end_time st = some (rc, st2) ∧
        (found = none → st2.messages = st.messages ∧
          rpc_message_list_size st2 = rpc_message_list_size st) ∧
        (∀ e, found = some e → ∃ pre post,
          st.messages = pre ++ e :: post ∧ st2.messages = pre ++ post ∧
          rpc_message_list_size st2 = rpc_message_list_size st - 1)) ∧
    (∀ k found st1, _remove_message_for_id k st = some (found, st1) →
      remove_message_for_id k st = some st1 ∧
        (found = none → st1.messages = st.messages ∧
          rpc_message_list_size st1 = rpc_message_list_size st) ∧
        (∀ e, found = some e → ∃ pre post,
          st.messages = pre ++ e :: post ∧ st1.messages = pre ++ post ∧
          rpc_message_list_size st1 = rpc_message_list_size st - 1)) ∧
    ((∀ m ∈ st.messages, has_text_id m) →
      (∀ k : String, ∃ found st1, _remove_message_for_id (some k) st = some (found, st1)) ∧
      (∀ response, (json_object_get response "id" = none ∨
          ∃ s, json_object_get response "id" = some (json_t.string s)) →
        ∃ found rid st1, remove_message_for_response response st =
          some (found, rid, st1))) := by
  have hlocal : ∀ (k : Option String) (found : Option message_t) (rest : List message_t),
      remove_scan k st.messages = some (found, rest) →
      (found = none → rest = st.messages ∧
        ((rest.length : Int) = (st.messages.length : Int))) ∧
      (∀ e, found = some e → ∃ pre post,
        st.messages = pre ++ e :: post ∧ rest = pre ++ post ∧
        ((rest.length : Int) = (st.messages.length : Int) - 1)) := by
    intro k found rest hscan
    constructor
    · intro hn
      subst hn
      have := remove_scan_not_found k st.messages rest hscan
      exact ⟨this, by rw [this]⟩
    · intro e he
      subst he
      obtain ⟨pre, post, h1, h2⟩ := remove_scan_found k st.messages rest e hscan
      refine ⟨pre, post, h1, h2, ?_⟩
      rw [h1, h2]
      simp only [List.length_append, List.length_cons]
      push_cast
      omega
  refine ⟨?_, ?_, ?_⟩
  · intro response begin_time end_time found rid st1 h
    obtain ⟨st2, hh, hm⟩ := handle_response_of_lookup response begin_time end_time st st1
      found rid h
    refine ⟨_, st2, hh, ?_, ?_⟩
    · intro hn
      subst hn
      obtain ⟨h1, -⟩ := remove_message_for_response_not_found response st st1 rid h
      exact ⟨by rw [hm, h1], by simp [rpc_message_list_size, hm, h1]⟩
    · intro e he
      subst he
      obtain ⟨rest, hscan, hst1, -⟩ := remove_message_for_response_found response st st1 e rid h
      obtain ⟨pre, post, h1, h2, h3⟩ := (hlocal rid (some e) rest hscan).2 e rfl
      refine ⟨pre, post, h1, by rw [hm, hst1, h2], ?_⟩
      simp only [rpc_message_list_size, hm, hst1]
      exact h3
  · intro k found st1 h
    obtain ⟨rest, hscan, hst1⟩ := remove_message_for_id_scan k st st1 found h
    obtain ⟨hn, hs⟩ := hlocal k found rest hscan
    refine ⟨by simp [remove_message_for_id, h], ?_, ?_⟩
    · intro hnone
      obtain ⟨h1, h2⟩ := hn hnone
      exact ⟨by rw [hst1, h1], by simp only [rpc_message_list_size, hst1]; exact h2⟩
    · intro e he
      obtain ⟨pre, post, h1, h2, h3⟩ := hs e he
      exact ⟨pre, post, h1, by rw [hst1, h2],
        by simp only [rpc_message_list_size, hst1]; exact h3⟩
  · intro hwf
    constructor
    · intro k
      obtain ⟨r, hr⟩ := remove_scan_total k st.messages hwf
      exact ⟨r.1, { messages := r.2, trace := st.trace },
        by simp [_remove_message_for_id, hr]⟩
    · intro response hid
      obtain ⟨r, hr⟩ := remove_message_for_response_total response st hwf hid
      exact ⟨r.1, r.2.1, r.2.2, hr⟩

/-- C19, at a success response for the second of three pending entries. -/
theorem C19_removal_is_local_witness :
    ∃ rc st2, handle_response (some (success_response "2")) 0 10
        { messages := [sample_entry 1 "1" 7, sample_entry 2 "2" 8, sample_entry 3 "3" 9],
          trace := [] } = some (rc, st2) ∧
      st2.messages = [sample_entry 1 "1" 7, sample_entry 3 "3" 9] ∧
      (∀ e, some (sample_entry 2 "2" 8) = some e → ∃ pre post,
        [sample_entry 1 "1" 7, sample_entry 2 "2" 8, sample_entry 3 "3" 9] =
          pre ++ e :: post ∧ st2.messages = pre ++ post ∧
        rpc_message_list_size st2 = rpc_message_list_size
          { messages := [sample_entry 1 "1" 7, sample_entry 2 "2" 8, sample_entry 3 "3" 9],
            trace := [] } - 1) := by
  obtain ⟨rc, st2, h1, -, h3⟩ := (C19_removal_is_local
    { messages := [sample_entry 1 "1" 7, sample_entry 2 "2" 8, sample_entry 3 "3" 9],
      trace := [] }).1 (some (success_response "2")) 0 10 (some (sample_entry 2 "2" 8))
    (some "2") { messages := [sample_entry 1 "1" 7, sample_entry 3 "3" 9], trace := [] } rfl
  refine ⟨rc, st2, h1, ?_, h3⟩
  have h0 : handle_response (some (success_response "2")) 0 10
      { messages := [sample_entry 1 "1" 7, sample_entry 2 "2" 8, sample_entry 3 "3" 9],
        trace := [] } =
      some (0, { messages := [sample_entry 1 "1" 7, sample_entry 3 "3" 9],
                 trace := [event.success_handler 2 100 (some (success_response "2")) 8,
                   event.log (log_t.callback_time 10),
                   event.json_decref 2 (some (request_with_id "2")),
                   event.free_func 2 300 8, event.free 2] }) := rfl
  rw [h0] at h1
  simp only [Option.some.injEq, Prod.mk.injEq] at h1
  rw [← h1.2]

/-- C20, at the failing input: the entry "1" is pending and a response arrives whose "id" is
the number 1.  No entry is matched and the response has a "result", so the claim gives the
return code 0; but `json_string_value` gives `NULL` for the number, `strlen(NULL)` is
evaluated at the first pending entry, and `handle_response` has no result at all. -/
theorem C20_numeric_id_has_no_result :
    json_object_get (some numeric_id_response) "id" = some (json_t.integer 1) ∧
    json_string_value (some (json_t.integer 1)) = none ∧
    (json_object_get (some numeric_id_response) "result").isSome = true ∧
    entry_id (sample_entry 1 "1" 7) = some "1" ∧
    remove_message_for_response (some numeric_id_response)
      { messages := [sample_entry 1 "1" 7], trace := [] } = none ∧
    handle_response (some numeric_id_response) 0 10
      { messages := [sample_entry 1 "1" 7], trace := [] } = none ∧
    ¬ ∃ rc st2, handle_response (some numeric_id_response) 0 10
      { messages := [sample_entry 1 "1" 7], trace := [] } = some (rc, st2) := by
  refine ⟨rfl, rfl, rfl, rfl, rfl, rfl, ?_⟩
  rintro ⟨rc, st2, h⟩
  have h0 : handle_response (some numeric_id_response) 0 10
      { messages := [sample_entry 1 "1" 7], trace := [] } = none := rfl
  rw [h0] at h
  simp at h

end Rpc
